import Mathlib

/-!
Verification development for the miutifin backend ingestion subsystem.

The Python source under app/routers (ingestions_dice.py, ingestions_xceed.py,
ingestions_eventbrite.py, ingestions_osm.py, ingestions/places/osm.py) is
shallowly embedded below.  Pure helpers (price parsing, date parsing, checksum)
are translated directly; the HTTP fetches are oracles passed as `Except`
parameters, and the Supabase store is an explicit `DBState` record threaded
through each endpoint.  Python `str`-or-`None` values are `Option String`,
Python truthiness (`if not x`) is modelled explicitly (empty string and zero
are falsy), and machine floats for prices are modelled as `Rat` (the parsed
literals in every claim are exact decimals).
-/

namespace Miutifin

/-! ### Python truthiness helpers -/

/-- Python truthiness of a `str`-or-`None` value: `None` and `""` are falsy. -/
def pyTruthyS (s : Option String) : Bool :=
  match s with
  | none => false
  | some t => !(t == "")

/-- Python `a or b` where `a` is `str`-or-`None` and `b` is a `str` default. -/
def pyOrS (a : Option String) (b : String) : String :=
  match a with
  | some t => if t == "" then b else t
  | none => b

/-- Python `a or b` on two `str`-or-`None` values. -/
def pyOrOptS (a b : Option String) : Option String :=
  if pyTruthyS a then a else b

/-- Python `a or b` on two numeric-or-`None` values: `None` and `0` are falsy
(the source applies `or` to floats, so a `0.0` coordinate falls through). -/
def pyOrOptR (a b : Option Rat) : Option Rat :=
  match a with
  | some x => if x == 0 then b else some x
  | none => b

/-- Python `" · ".join`-style joining with a separator. -/
def joinSepStr (sep : String) : List String → String
  | [] => ""
  | [x] => x
  | x :: y :: xs => x ++ sep ++ joinSepStr sep (y :: xs)

/-- The truthy elements of a list of `str`-or-`None` values, in order
(Python `[p for p in l if p]`). -/
def truthyList : List (Option String) → List String
  | [] => []
  | none :: rest => truthyList rest
  | some t :: rest => if t == "" then truthyList rest else t :: truthyList rest

/-! ### Substring search (Python `in` on lowered text) -/

/-- Whether `n` is a leading segment of `h`. -/
def leadMatch : List Char → List Char → Bool
  | [], _ => true
  | _ :: _, [] => false
  | a :: as_, b :: bs => a == b && leadMatch as_ bs

/-- Whether `n` occurs contiguously inside `h` (Python `n in h` on strings). -/
def subMatch (n : List Char) : List Char → Bool
  | [] => leadMatch n []
  | c :: rest => leadMatch n (c :: rest) || subMatch n rest

/-! ### The number-token scanner

`re.findall(r"\d+(?:[.,]\d+)?", t)` from ingestions_dice.py `parse_price` and
ingestions_xceed.py `parse_prices`: maximal digit runs, each optionally
followed by one `.` or `,` and a further digit run. -/

mutual

/-- Scan for number tokens, skipping non-digit characters. -/
def scanNums : List Char → List (List Char)
  | [] => []
  | c :: rest =>
    if c.isDigit then grabNum [c] rest else scanNums rest

/-- Collect the integer part of a number token; `acc` holds seen digits
reversed. -/
def grabNum (acc : List Char) : List Char → List (List Char)
  | [] => [acc.reverse]
  | c :: rest =>
    if c.isDigit then grabNum (c :: acc) rest
    else if c == '.' || c == ',' then
      match rest with
      | [] => [acc.reverse]
      | d :: rest2 =>
        if d.isDigit then grabFrac (d :: c :: acc) rest2
        else acc.reverse :: scanNums (d :: rest2)
    else acc.reverse :: scanNums rest

/-- Collect the fractional part of a number token. -/
def grabFrac (acc : List Char) : List Char → List (List Char)
  | [] => [acc.reverse]
  | c :: rest =>
    if c.isDigit then grabFrac (c :: acc) rest
    else acc.reverse :: scanNums rest

end

/-- Numeric value of a run of decimal digits. -/
def digitsVal (ds : List Char) : Nat :=
  ds.foldl (fun a c => 10 * a + (c.toNat - 48)) 0

/-- Python `float(tok.replace(",", "."))` on a scanned token, which has the
shape `digits` or `digits sep digits`. -/
def numVal (cs : List Char) : Rat :=
  let ip := cs.takeWhile (fun c => c.isDigit)
  match cs.dropWhile (fun c => c.isDigit) with
  | [] => (digitsVal ip : Rat)
  | _ :: fracs => (digitsVal ip : Rat) + (digitsVal fracs : Rat) / ((10 : Rat) ^ fracs.length)

/-- ingestions_dice.py `parse_price`: free-text detection on the lowered text,
then min/max over all scanned numbers. -/
def parse_price (text : Option String) : Option Rat × Option Rat :=
  match text with
  | none => (none, none)
  | some s =>
    if s == "" then (none, none)
    else
      let t := s.data.map Char.toLower
      if subMatch "gratis".data t || subMatch "free".data t then (some 0, some 0)
      else
        match (scanNums t).map numVal with
        | [] => (none, none)
        | n :: rest => (some (rest.foldl min n), some (rest.foldl max n))

/-- ingestions_xceed.py `parse_prices`: min/max over all scanned numbers,
with no free-text handling. -/
def parse_prices (text : Option String) : Option Rat × Option Rat :=
  match text with
  | none => (none, none)
  | some s =>
    if s == "" then (none, none)
    else
      match (scanNums s.data).map numVal with
      | [] => (none, none)
      | n :: rest => (some (rest.foldl min n), some (rest.foldl max n))

/-! ### Date handling for ingestions_dice.py `parse_dice_date`

`pytz` localization is modelled as the identity: all datetimes below live in
the wall clock of the one city timezone of the run, and `now` is given in that
clock.  Comparison of two aware datetimes in the same zone is lexicographic on
the wall-clock fields (the 21:00 event time is far from any DST transition).
`relativedelta(days=1)` subtraction is one calendar day back keeping the time;
`relativedelta(years=1)` addition is next year with the day clamped to the
month length. -/

structure PyDateTime where
  year : Nat
  month : Nat
  day : Nat
  hour : Nat
  minute : Nat
deriving DecidableEq, Repr

/-- Strict comparison of same-zone datetimes, lexicographic on fields. -/
def dtLtB (a b : PyDateTime) : Bool :=
  a.year < b.year ||
    (a.year == b.year && (a.month < b.month ||
      (a.month == b.month && (a.day < b.day ||
        (a.day == b.day && (a.hour < b.hour ||
          (a.hour == b.hour && a.minute < b.minute)))))))

def isLeap (y : Nat) : Bool :=
  y % 4 == 0 && (y % 100 != 0 || y % 400 == 0)

def daysInMonth (y m : Nat) : Nat :=
  if m == 2 then (if isLeap y then 29 else 28)
  else if m == 4 || m == 6 || m == 9 || m == 11 then 30
  else 31

/-- `now - relativedelta(days=1)`: one calendar day back, keeping the time. -/
def subOneDay (d : PyDateTime) : PyDateTime :=
  if 1 < d.day then { d with day := d.day - 1 }
  else if 1 < d.month then { d with month := d.month - 1, day := daysInMonth d.year (d.month - 1) }
  else { d with year := d.year - 1, month := 12, day := 31 }

/-- `dt + relativedelta(years=1)`: next year, day clamped to the month. -/
def addOneYear (d : PyDateTime) : PyDateTime :=
  { d with year := d.year + 1, day := min d.day (daysInMonth (d.year + 1) d.month) }

/-- The `MONTHS` table of ingestions_dice.py (English and Italian
three-letter keys). -/
def monthsLookup (s : List Char) : Option Nat :=
  if s = "jan".data || s = "gen".data then some 1
  else if s = "feb".data then some 2
  else if s = "mar".data then some 3
  else if s = "apr".data then some 4
  else if s = "may".data || s = "mag".data then some 5
  else if s = "jun".data || s = "giu".data then some 6
  else if s = "jul".data || s = "lug".data then some 7
  else if s = "aug".data || s = "ago".data then some 8
  else if s = "sep".data || s = "set".data then some 9
  else if s = "oct".data || s = "ott".data then some 10
  else if s = "nov".data then some 11
  else if s = "dec".data || s = "dic".data then some 12
  else none

/-- Python `text.split("-")[0]`: the segment before the first dash. -/
def beforeDash : List Char → List Char
  | [] => []
  | c :: cs => if c == '-' then [] else c :: beforeDash cs

mutual

/-- Python `str.split()` with no argument: split on whitespace runs,
producing no empty tokens. -/
def wsSplit : List Char → List (List Char)
  | [] => []
  | c :: cs => if c.isWhitespace then wsSplit cs else wsWord [c] cs

/-- Continuation of `wsSplit` inside a word; `acc` holds the word reversed. -/
def wsWord (acc : List Char) : List Char → List (List Char)
  | [] => [acc.reverse]
  | c :: cs => if c.isWhitespace then acc.reverse :: wsSplit cs else wsWord (c :: acc) cs

end

/-- Python `int(tok)` on a whitespace-free token: succeeds on a nonempty
digit run, otherwise raises (modelled as `none`). -/
def pyIntDigits (s : List Char) : Option Nat :=
  if s ≠ [] ∧ s.all (fun c => c.isDigit) then some (digitsVal s) else none

/-- The tokenization and day/month extraction of `parse_dice_date`:
`text.lower().split("-")[0].split()`, then `int(tokens[-2])` and
`MONTHS.get(tokens[-1][:3])`. -/
def parseDayMonthTokens (text : List Char) : Option (Nat × Nat) :=
  let toks := wsSplit (beforeDash (text.map Char.toLower))
  if toks.length < 2 then none
  else
    match pyIntDigits (toks.getD (toks.length - 2) []),
          monthsLookup ((toks.getD (toks.length - 1) []).take 3) with
    | some d, some m => some (d, m)
    | _, _ => none

/-- ingestions_dice.py `parse_dice_date`: resolve a bare day/month against
`now.year` at 21:00, projecting one year forward when the composed date is
older than one day before `now`.  An out-of-range day makes the `datetime`
constructor raise, which the source catches into `None`. -/
def parse_dice_date (now : PyDateTime) (text : Option String) : Option PyDateTime :=
  match text with
  | none => none
  | some s =>
    if s == "" then none
    else
      match parseDayMonthTokens s.data with
      | none => none
      | some (d, m) =>
        if d < 1 || daysInMonth now.year m < d then none
        else
          let dt : PyDateTime := ⟨now.year, m, d, 21, 0⟩
          if dtLtB dt (subOneDay now) then some (addOneYear dt) else some dt

/-! ### JSON payloads and `checksum`

Every adapter defines the same
`checksum(payload) = sha256(json.dumps(payload, sort_keys=True).encode()).hexdigest()`.
`Json` models the structured payload values; `dumpsJ` models
`json.dumps(·, sort_keys=True)` (keys sorted at every level, `", "` and
`": "` separators, `ensure_ascii` escaping).  Numeric rendering keeps the
exact rational instead of Python float repr; no claim inspects the digest
text itself. -/

inductive Json where
  | null : Json
  | bool : Bool → Json
  | num : Rat → Json
  | str : String → Json
  | arr : List Json → Json
  | obj : List (String × Json) → Json

def keyLe (a b : String × Json) : Prop := a.1 ≤ b.1

instance : DecidableRel keyLe := fun a b => inferInstanceAs (Decidable (a.1 ≤ b.1))

instance : IsTotal (String × Json) keyLe := ⟨fun a b => le_total a.1 b.1⟩

instance : IsTrans (String × Json) keyLe := ⟨fun _ _ _ h1 h2 => le_trans h1 h2⟩

/-- Strict key order on fields. -/
def keyLt (a b : String × Json) : Prop := a.1 < b.1

instance : IsAntisymm (String × Json) keyLt :=
  ⟨fun _ _ h1 h2 => absurd h2 (lt_asymm h1)⟩

/-- Key order on fields used by `sort_keys=True`. -/
def sortFields (fs : List (String × Json)) : List (String × Json) :=
  List.insertionSort keyLe fs

def hexDigit (n : Nat) : Char := "0123456789abcdef".data.getD n '0'

/-- Four lowercase hex digits (for `\uXXXX` escapes). -/
def hex4 (n : Nat) : List Char :=
  (List.range 4).map (fun i => hexDigit ((n >>> (12 - 4 * i)) % 16))

/-- `json.dumps` escaping of one character with `ensure_ascii=True`. -/
def escChar (c : Char) : List Char :=
  if c == '"' then ['\\', '"']
  else if c == '\\' then ['\\', '\\']
  else if c == '\n' then ['\\', 'n']
  else if c == '\t' then ['\\', 't']
  else if c == '\r' then ['\\', 'r']
  else if c == '\x08' then ['\\', 'b']
  else if c == '\x0c' then ['\\', 'f']
  else if c.toNat < 32 then '\\' :: 'u' :: hex4 c.toNat
  else if c.toNat < 127 then [c]
  else if c.toNat < 65536 then '\\' :: 'u' :: hex4 c.toNat
  else
    '\\' :: 'u' :: hex4 (55296 + (c.toNat - 65536) / 1024) ++
      '\\' :: 'u' :: hex4 (56320 + (c.toNat - 65536) % 1024)

/-- A JSON string literal with quotes and escapes. -/
def dumpsStr (s : String) : List Char :=
  '"' :: s.data.foldr (fun c acc => escChar c ++ acc) ['"']

/-- Integer rendering. -/
def intChars (i : Int) : List Char :=
  if i < 0 then '-' :: Nat.toDigits 10 i.natAbs else Nat.toDigits 10 i.natAbs

/-- Number rendering (exact rational; abstraction of Python float repr). -/
def dumpsNum (q : Rat) : List Char :=
  if q.den == 1 then intChars q.num
  else intChars q.num ++ '/' :: Nat.toDigits 10 q.den

/-- `", "`-separated concatenation. -/
def joinComma : List (List Char) → List Char
  | [] => []
  | [x] => x
  | x :: y :: xs => x ++ ',' :: ' ' :: joinComma (y :: xs)

theorem sizeOf_lt_of_mem_sortFields {p : String × Json} {fs : List (String × Json)}
    (h : p ∈ sortFields fs) : sizeOf p < 1 + sizeOf fs := by
  have hmem : p ∈ fs := by
    have := (List.perm_insertionSort keyLe fs).mem_iff.mp h
    exact this
  have := List.sizeOf_lt_of_mem hmem
  omega

/-- `json.dumps(·, sort_keys=True)` on a `Json` value, as characters. -/
def dumpsJ : Json → List Char
  | Json.null => "null".data
  | Json.bool true => "true".data
  | Json.bool false => "false".data
  | Json.num q => dumpsNum q
  | Json.str s => dumpsStr s
  | Json.arr xs =>
    '[' :: joinComma (xs.attach.map (fun x => dumpsJ x.1)) ++ [']']
  | Json.obj fs =>
    Char.ofNat 123 ::
      joinComma ((sortFields fs).attach.map
        (fun p => dumpsStr p.1.1 ++ ':' :: ' ' :: dumpsJ p.1.2)) ++ [Char.ofNat 125]
termination_by j => sizeOf j
decreasing_by
  · have := List.sizeOf_lt_of_mem x.2
    simp only [Json.arr.sizeOf_spec]
    omega
  · have := sizeOf_lt_of_mem_sortFields p.2
    rcases p with ⟨⟨k, v⟩, hp⟩
    simp only [Json.obj.sizeOf_spec]
    simp only [Prod.mk.sizeOf_spec] at this
    omega

/-! #### SHA-256 over byte lists (bytes as `Nat < 256`, words as `Nat < 2^32`) -/

/-- UTF-8 encoding of one character. -/
def utf8EncodeChar (c : Char) : List Nat :=
  let n := c.toNat
  if n < 128 then [n]
  else if n < 2048 then [192 + n / 64, 128 + n % 64]
  else if n < 65536 then [224 + n / 4096, 128 + (n / 64) % 64, 128 + n % 64]
  else [240 + n / 262144, 128 + (n / 4096) % 64, 128 + (n / 64) % 64, 128 + n % 64]

/-- UTF-8 bytes of a character list (`.encode("utf-8")`). -/
def utf8Bytes (s : List Char) : List Nat :=
  s.foldr (fun c acc => utf8EncodeChar c ++ acc) []

def w32 (n : Nat) : Nat := n % 4294967296

/-- Right rotation of a 32-bit word. -/
def rotr32 (n x : Nat) : Nat := w32 ((x >>> n) ||| (x <<< (32 - n)))

/-- Big-endian bytes of `n`, `k` bytes wide. -/
def beBytes : Nat → Nat → List Nat
  | 0, _ => []
  | k + 1, n => beBytes k (n / 256) ++ [n % 256]

/-- SHA-256 padding: `0x80`, zeros to 56 mod 64, then the 64-bit bit length. -/
def sha256pad (msg : List Nat) : List Nat :=
  let zeros := (119 - msg.length % 64) % 64
  msg ++ 128 :: List.replicate zeros 0 ++ beBytes 8 (8 * msg.length)

/-- Big-endian 32-bit words from bytes. -/
def toWords : List Nat → List Nat
  | a :: b :: c :: d :: rest => (((a * 256 + b) * 256 + c) * 256 + d) :: toWords rest
  | _ => []

/-- Blocks of 16 words. -/
def toBlocks : List Nat → List (List Nat)
  | [] => []
  | w :: ws => (w :: ws.take 15) :: toBlocks (ws.drop 15)
termination_by l => l.length
decreasing_by
  simp only [List.length_drop, List.length_cons]
  omega

def sha256K : List Nat :=
  [1116352408, 1899447441, 3049323471, 3921009573, 961987163, 1508970993,
   2453635748, 2870763221, 3624381080, 310598401, 607225278, 1426881987,
   1925078388, 2162078206, 2614888103, 3248222580, 3835390401, 4022224774,
   264347078, 604807628, 770255983, 1249150122, 1555081692, 1996064986,
   2554220882, 2821834349, 2952996808, 3210313671, 3336571891, 3584528711,
   113926993, 338241895, 666307205, 773529912, 1294757372, 1396182291,
   1695183700, 1986661051, 2177026350, 2456956037, 2730485921, 2820302411,
   3259730800, 3345764771, 3516065817, 3600352804, 4094571909, 275423344,
   430227734, 506948616, 659060556, 883997877, 958139571, 1322822218,
   1537002063, 1747873779, 1955562222, 2024104815, 2227730452, 2361852424,
   2428436474, 2756734187, 3204031479, 3329325298]

def sha256H0 : List Nat :=
  [1779033703, 3144134277, 1013904242, 2773480762,
   1359893119, 2600822924, 528734635, 1541459225]

/-- Message-schedule extension: append `k` further words. -/
def extendW : Nat → List Nat → List Nat
  | 0, w => w
  | k + 1, w =>
    let n := w.length
    let x15 := w.getD (n - 15) 0
    let x2 := w.getD (n - 2) 0
    let s0 := (rotr32 7 x15) ^^^ (rotr32 18 x15) ^^^ (x15 >>> 3)
    let s1 := (rotr32 17 x2) ^^^ (rotr32 19 x2) ^^^ (x2 >>> 10)
    extendW k (w ++ [w32 (w.getD (n - 16) 0 + s0 + w.getD (n - 7) 0 + s1)])

/-- One compression round; the state is the 8-word list `[a,b,c,d,e,f,g,h]`. -/
def compRound (st : List Nat) (kw : Nat × Nat) : List Nat :=
  match st with
  | [a, b, c, d, e, f, g, h] =>
    let s1 := (rotr32 6 e) ^^^ (rotr32 11 e) ^^^ (rotr32 25 e)
    let ch := (e &&& f) ^^^ ((e ^^^ 4294967295) &&& g)
    let t1 := w32 (h + s1 + ch + kw.1 + kw.2)
    let s0 := (rotr32 2 a) ^^^ (rotr32 13 a) ^^^ (rotr32 22 a)
    let mj := (a &&& b) ^^^ (a &&& c) ^^^ (b &&& c)
    let t2 := w32 (s0 + mj)
    [w32 (t1 + t2), a, b, c, w32 (d + t1), e, f, g]
  | other => other

/-- Process one 16-word block against the running hash. -/
def processBlock (h : List Nat) (block : List Nat) : List Nat :=
  let w := extendW 48 block
  let st := (sha256K.zip w).foldl compRound h
  List.zipWith (fun x y => w32 (x + y)) h st

/-- Eight lowercase hex digits of a 32-bit word. -/
def hexWord (n : Nat) : List Char :=
  (List.range 8).map (fun i => hexDigit ((n >>> (28 - 4 * i)) % 16))

/-- SHA-256 hex digest of a byte list. -/
def sha256hex (msg : List Nat) : String :=
  ⟨((toBlocks (toWords (sha256pad msg))).foldl processBlock sha256H0).foldr
    (fun wd acc => hexWord wd ++ acc) []⟩

/-- The `checksum` helper shared verbatim by every ingestion router:
`hashlib.sha256(json.dumps(payload, sort_keys=True).encode("utf-8")).hexdigest()`. -/
def checksum (payload : List (String × Json)) : String :=
  sha256hex (utf8Bytes (dumpsJ (Json.obj payload)))

/-! ### The persistent store

Row types mirror the insert dictionaries of the source; the store is an
explicit record of append-only tables.  Row ids are positional (a new
ingestion row's id is its index), matching update-by-id with `List.set`. -/

def optStrJ : Option String → Json
  | none => Json.null
  | some s => Json.str s

def optRatJ : Option Rat → Json
  | none => Json.null
  | some q => Json.num q

structure SubRow where
  city_id : Nat
  source : String
  source_url : String
  title : Option String
  description : Option String
  start_at : Option String
  end_at : Option String
  price_min : Option Rat
  price_max : Option Rat
  venue_name : Option String
  venue_address : Option String
  source_payload : Json
  ingestion_id : Option Nat
  lat : Option Rat
  lng : Option Rat
  confidence : Nat
  status : String
  image : Option String

structure RawRow where
  source_id : Nat
  city_id : Nat
  url : String
  checksum : String
  payload_json : Json

structure RunRow where
  source_id : Nat
  city_id : Nat
  status : String
  ended_at : Option String
  error : Option String
deriving DecidableEq

structure PlaceRow where
  city_id : Nat
  category_id : Nat
  name : String
  slug : String
  description : Option String
  address : Option String
  lat : Option Rat
  lng : Option Rat
  cover_image : Option String
  price_level : Option Nat
  source_confidence : Option Nat
  popularity : Option Nat
deriving DecidableEq

structure CatRow where
  id : Nat
  name : String
  slug : String
  ctype : String
deriving DecidableEq

structure SourceRow where
  id : Nat
  name : String
  stype : String
  enabled : Bool
deriving DecidableEq

structure DBState where
  submissions : List SubRow
  raw_items : List RawRow
  ingestions : List RunRow
  places : List PlaceRow
  categories : List CatRow
  sources : List SourceRow

def natStr (n : Nat) : String := ⟨Nat.toDigits 10 n⟩

/-- Two-digit zero padding. -/
def pad2 (n : Nat) : List Char :=
  if n < 10 then '0' :: Nat.toDigits 10 n else Nat.toDigits 10 n

/-- `datetime.isoformat()` on the wall-clock fields (the zone offset suffix is
not modelled; no claim inspects the rendered text). -/
def isoformat (d : PyDateTime) : String :=
  ⟨Nat.toDigits 10 d.year ++ '-' :: pad2 d.month ++ '-' :: pad2 d.day ++
    'T' :: pad2 d.hour ++ ':' :: pad2 d.minute ++ ":00".data⟩

/-- A plain model of python-slugify on a name: lowercase, alphanumeric runs
kept, everything else collapsed to single dashes, trimmed. -/
def slugify (s : String) : String :=
  let ws := wsSplit (s.data.map Char.toLower |>.map
    (fun c => if c.isAlphanum then c else ' '))
  ⟨(joinSepStr "-" (ws.map (fun w => ⟨w⟩))).data⟩

/-- The source urls among a submission list for one source and city. -/
def existingUrlsL (srcName : String) (cid : Nat) (subs : List SubRow) : List String :=
  (subs.filter (fun r => r.source == srcName && r.city_id == cid)).map
    (fun r => r.source_url)

/-- The set of source urls already present for one source and city:
`submissions.select("source_url").eq("source", name).eq("city_id", cid)`. -/
def existingUrls (srcName : String) (cid : Nat) (s : DBState) : List String :=
  existingUrlsL srcName cid s.submissions

/-- A freshly inserted ingestion row: `{"source_id", "city_id", "status": "running"}`. -/
def startRow (sid cid : Nat) : RunRow :=
  ⟨sid, cid, "running", none, none⟩

/-- The success terminal update: `{"status": "success", "ended_at": ...}`. -/
def successRow (r : RunRow) (t : String) : RunRow :=
  { r with status := "success", ended_at := some t }

/-- The failure terminal update:
`{"status": "failed", "ended_at": ..., "error": str(e)}`. -/
def failedRow (r : RunRow) (t e : String) : RunRow :=
  { r with status := "failed", ended_at := some t, error := some e }

structure RunSummary where
  found : Nat
  inserted : Nat
  skipped : Nat
  errors : Nat
deriving DecidableEq

structure CountSummary where
  inserted : Nat
  skipped : Nat
  errors : Nat
deriving DecidableEq

/-! ### ingestions_dice.py `ingest_dice`

The page fetch and the per-candidate detail fetches are oracles; the page
fetch raising fails the whole run, a detail fetch raising is the one
per-candidate failure point (it precedes both writes of the pair).  The store
itself is modelled reliable.  `tEnd` stands for `datetime.utcnow().isoformat()`. -/

structure DiceItem where
  source_url : String
  title : Option String
  date_text : Option String
  venue : Option String
  price_text : Option String
  image : Option String

structure DiceDetail where
  description : Option String
  image : Option String

/-- The payload dict `{**item, **detail, "start_at": ..., "price_min": ...,
"price_max": ...}` (the detail image overwrites the card image). -/
def dicePayloadFields (i : DiceItem) (det : DiceDetail) (startAt : Option String)
    (pmin pmax : Option Rat) : List (String × Json) :=
  [("source_url", Json.str i.source_url),
   ("title", optStrJ i.title),
   ("date_text", optStrJ i.date_text),
   ("venue", optStrJ i.venue),
   ("price_text", optStrJ i.price_text),
   ("image", optStrJ det.image),
   ("description", optStrJ det.description),
   ("start_at", optStrJ startAt),
   ("price_min", optRatJ pmin),
   ("price_max", optRatJ pmax)]

/-- The submission insert of `ingest_dice`. -/
def diceSubRow (cid runId : Nat) (i : DiceItem) (det : DiceDetail)
    (startAt : Option String) (pmin pmax : Option Rat) : SubRow :=
  { city_id := cid
    source := "dice"
    source_url := i.source_url
    title := i.title
    description := some (pyOrS det.description
      (joinSepStr " · " (truthyList [i.venue, i.date_text, i.price_text])))
    start_at := startAt
    end_at := none
    price_min := pmin
    price_max := pmax
    venue_name := i.venue
    venue_address := none
    source_payload := Json.obj (dicePayloadFields i det startAt pmin pmax)
    ingestion_id := some runId
    lat := none
    lng := none
    confidence := 60
    status := "visible"
    image := pyOrOptS det.image i.image }

/-- The raw-payload and submission pair written for one surviving candidate. -/
def diceProcess (now : PyDateTime) (cid sid runId : Nat) (i : DiceItem)
    (det : DiceDetail) : RawRow × SubRow :=
  let startAt := (parse_dice_date now i.date_text).map isoformat
  let pm := parse_price i.price_text
  let pf := dicePayloadFields i det startAt pm.1 pm.2
  (⟨sid, cid, i.source_url, checksum pf, Json.obj pf⟩,
   diceSubRow cid runId i det startAt pm.1 pm.2)

/-- The skip test `not item.get("title") or item["source_url"] in existing`. -/
def diceSkip (ex : List String) (i : DiceItem) : Bool :=
  !(pyTruthyS i.title) || ex.contains i.source_url

/-- The per-candidate loop of `ingest_dice`, threading the run counters. -/
def diceLoop (now : PyDateTime) (cid sid runId : Nat)
    (detail : String → Except String DiceDetail) (ex : List String) :
    List DiceItem → DBState → Nat → Nat → Nat → DBState × Nat × Nat × Nat
  | [], s, ins, sk, er => (s, ins, sk, er)
  | i :: rest, s, ins, sk, er =>
    if diceSkip ex i then
      diceLoop now cid sid runId detail ex rest s ins (sk + 1) er
    else
      match detail i.source_url with
      | Except.error _ => diceLoop now cid sid runId detail ex rest s ins sk (er + 1)
      | Except.ok det =>
        let pr := diceProcess now cid sid runId i det
        diceLoop now cid sid runId detail ex rest
          { s with raw_items := s.raw_items ++ [pr.1],
                   submissions := s.submissions ++ [pr.2] }
          (ins + 1) sk er

/-- `POST /ingestions/dice` after city/source resolution: open the run, fetch
the page, dedup against one url-set query, loop, close the run.  A page-level
error closes the run as failed and re-raises (no summary). -/
def ingest_dice (now : PyDateTime) (cid sid : Nat)
    (page : Except String (List DiceItem))
    (detail : String → Except String DiceDetail) (tEnd : String)
    (s : DBState) : DBState × Option RunSummary :=
  let runId := s.ingestions.length
  let s0 := { s with ingestions := s.ingestions ++ [startRow sid cid] }
  match page with
  | Except.error e =>
    ({ s0 with ingestions := s0.ingestions.set runId (failedRow (startRow sid cid) tEnd e) },
     none)
  | Except.ok items =>
    let ex := existingUrls "dice" cid s0
    let r := diceLoop now cid sid runId detail ex items s0 0 0 0
    ({ r.1 with ingestions := r.1.ingestions.set runId (successRow (startRow sid cid) tEnd) },
     some ⟨items.length, r.2.1, r.2.2.1, r.2.2.2⟩)

/-! ### ingestions_xceed.py `ingest_xceed`

One DOM-extracted item per run; the whole `fetch_xceed_event` is the oracle
(its field extraction, including `parse_datetime` via dateutil fuzzy parsing,
happens before any write). -/

structure XceedItem where
  source_url : String
  title : Option String
  description : Option String
  start_at : Option String
  price_min : Option Rat
  price_max : Option Rat
  venue : Option String
  venue_address : Option String
  image : Option String
  datetime_text : Option String
  price_text : Option String

/-- The `payload_json` projection checksummed by `ingest_xceed`
(`end_at` is always `None` in the fetched dict). -/
def xceedPayloadFields (it : XceedItem) : List (String × Json) :=
  [("source_url", Json.str it.source_url),
   ("title", optStrJ it.title),
   ("description", optStrJ it.description),
   ("start_at", optStrJ it.start_at),
   ("end_at", Json.null),
   ("price_min", optRatJ it.price_min),
   ("price_max", optRatJ it.price_max),
   ("venue", optStrJ it.venue),
   ("venue_address", optStrJ it.venue_address),
   ("image", optStrJ it.image)]

/-- `json_safe(item)`: the full fetched dict including the nested `raw` bag. -/
def xceedItemJson (it : XceedItem) : Json :=
  Json.obj (xceedPayloadFields it ++
    [("raw", Json.obj [("datetime_text", optStrJ it.datetime_text),
                       ("price_text", optStrJ it.price_text)])])

/-- The submission insert of `ingest_xceed`. -/
def xceedSubRow (cid runId : Nat) (it : XceedItem) : SubRow :=
  { city_id := cid
    source := "xceed"
    source_url := it.source_url
    title := it.title
    description := it.description
    start_at := it.start_at
    end_at := none
    price_min := it.price_min
    price_max := it.price_max
    venue_name := it.venue
    venue_address := it.venue_address
    source_payload := xceedItemJson it
    ingestion_id := some runId
    lat := none
    lng := none
    confidence := 70
    status := "visible"
    image := it.image }

/-- `POST /ingestions/xceed` after city/source resolution. -/
def ingest_xceed (cid sid : Nat) (fetch : Except String XceedItem)
    (tEnd : String) (s : DBState) : DBState × Option RunSummary :=
  let runId := s.ingestions.length
  let s0 := { s with ingestions := s.ingestions ++ [startRow sid cid] }
  match fetch with
  | Except.error e =>
    ({ s0 with ingestions := s0.ingestions.set runId (failedRow (startRow sid cid) tEnd e) },
     none)
  | Except.ok it =>
    let ex := existingUrls "xceed" cid s0
    if !(pyTruthyS it.title) || ex.contains it.source_url then
      ({ s0 with ingestions := s0.ingestions.set runId (successRow (startRow sid cid) tEnd) },
       some ⟨1, 0, 1, 0⟩)
    else
      let raw : RawRow :=
        ⟨sid, cid, it.source_url, checksum (xceedPayloadFields it),
         Json.obj [("datetime_text", optStrJ it.datetime_text),
                   ("price_text", optStrJ it.price_text)]⟩
      ({ s0 with raw_items := s0.raw_items ++ [raw],
                 submissions := s0.submissions ++ [xceedSubRow cid runId it],
                 ingestions := s0.ingestions.set runId (successRow (startRow sid cid) tEnd) },
       some ⟨1, 1, 0, 0⟩)

/-! ### ingestions_eventbrite.py `ingest_eventbrite`

One item per run.  There is no title-based skip: a missing title falls back
to the literal `"Eventbrite Event"` at insert time.  The returned summary has
no `found` field. -/

structure EbItem where
  source_url : String
  title : Option String
  description : Option String
  start_at : Option String
  end_at : Option String
  price_min : Option Rat
  price_max : Option Rat
  venue : Option String
  venue_address : Option String
  image : Option String

/-- The `raw` dict of `fetch_eventbrite_event` (all fields except the url). -/
def ebRawFields (it : EbItem) : List (String × Json) :=
  [("title", optStrJ it.title),
   ("description", optStrJ it.description),
   ("start_at", optStrJ it.start_at),
   ("end_at", optStrJ it.end_at),
   ("price_min", optRatJ it.price_min),
   ("price_max", optRatJ it.price_max),
   ("venue", optStrJ it.venue),
   ("venue_address", optStrJ it.venue_address),
   ("image", optStrJ it.image)]

/-- The submission insert of `ingest_eventbrite`, with the placeholder-title
fallback `item["title"] or "Eventbrite Event"`. -/
def ebSubRow (cid runId : Nat) (it : EbItem) : SubRow :=
  { city_id := cid
    source := "eventbrite"
    source_url := it.source_url
    title := some (pyOrS it.title "Eventbrite Event")
    description := it.description
    start_at := it.start_at
    end_at := it.end_at
    price_min := it.price_min
    price_max := it.price_max
    venue_name := it.venue
    venue_address := it.venue_address
    source_payload := Json.obj (ebRawFields it)
    ingestion_id := some runId
    lat := none
    lng := none
    confidence := 80
    status := "visible"
    image := it.image }

/-- `POST /ingestions/eventbrite` after city/source resolution. -/
def ingest_eventbrite (cid sid : Nat) (fetch : Except String EbItem)
    (tEnd : String) (s : DBState) : DBState × Option CountSummary :=
  let runId := s.ingestions.length
  let s0 := { s with ingestions := s.ingestions ++ [startRow sid cid] }
  match fetch with
  | Except.error e =>
    ({ s0 with ingestions := s0.ingestions.set runId (failedRow (startRow sid cid) tEnd e) },
     none)
  | Except.ok it =>
    let ex := existingUrls "eventbrite" cid s0
    if ex.contains it.source_url then
      ({ s0 with ingestions := s0.ingestions.set runId (successRow (startRow sid cid) tEnd) },
       some ⟨0, 1, 0⟩)
    else
      let raw : RawRow :=
        ⟨sid, cid, it.source_url, checksum (ebRawFields it), Json.obj (ebRawFields it)⟩
      ({ s0 with raw_items := s0.raw_items ++ [raw],
                 submissions := s0.submissions ++ [ebSubRow cid runId it],
                 ingestions := s0.ingestions.set runId (successRow (startRow sid cid) tEnd) },
       some ⟨1, 0, 0⟩)

/-! ### ingestions_osm.py `ingest_osm` (the run-tracked geodata endpoint)

The Overpass POST is the run-level oracle; the source issues it with the city
coordinates interpolated even when they are null (there is no centroid
check).  Per element, the only failure point with the store modelled reliable
is the `el["id"]` access when the element lacks an id (a `KeyError` caught by
the per-element handler).  The category lookup uses `.single()` but the code
then branches on empty data; the model follows the visible branch and returns
an empty lookup as a skip. -/

structure OsmEl where
  id : Option Nat
  tags : List (String × String)
  lat : Option Rat
  lon : Option Rat
  center_lat : Option Rat
  center_lon : Option Rat

/-- `tags.get(k)`. -/
def tagGet (tags : List (String × String)) (k : String) : Option String :=
  (tags.find? (fun p => p.1 == k)).map (fun p => p.2)

/-- ingestions_osm.py `map_category`: amenity/leisure tag to category slug. -/
def map_category (tags : List (String × String)) : Option String :=
  let amenity := tagGet tags "amenity"
  let leisure := tagGet tags "leisure"
  if amenity == some "bar" || amenity == some "pub" then some "bar"
  else if amenity == some "restaurant" then some "restaurant"
  else if amenity == some "cafe" then some "cafe"
  else if amenity == some "nightclub" then some "club"
  else if leisure == some "music_venue" then some "live-music"
  else none

/-- The raw payload `{"name": ..., "tags": ..., "lat": ..., "lng": ...}`. -/
def osmPayloadFields (name : String) (tags : List (String × String))
    (latE lngE : Option Rat) : List (String × Json) :=
  [("name", Json.str name),
   ("tags", Json.obj (tags.map (fun p => (p.1, Json.str p.2)))),
   ("lat", optRatJ latE),
   ("lng", optRatJ lngE)]

/-- The place insert of `ingest_osm`. -/
def osmPlaceRow (cid catId : Nat) (name : String) (tags : List (String × String))
    (latE lngE : Option Rat) : PlaceRow :=
  { city_id := cid
    category_id := catId
    name := name
    slug := slugify name
    description := tagGet tags "description"
    address := pyOrOptS (tagGet tags "addr:full") (tagGet tags "addr:street")
    lat := latE
    lng := lngE
    cover_image := none
    price_level := none
    source_confidence := some 50
    popularity := none }

/-- The raw item written for one element (`el["id"]` resolved to `eid`). -/
def osmRawRow (cid sid : Nat) (el : OsmEl) (eid : Nat) : RawRow :=
  let name := pyOrS (tagGet el.tags "name") ""
  let latE := pyOrOptR el.lat el.center_lat
  let lngE := pyOrOptR el.lon el.center_lon
  let pf := osmPayloadFields name el.tags latE lngE
  ⟨sid, cid, "osm:" ++ natStr eid, checksum pf, Json.obj pf⟩

/-- The store writes of one element of `ingest_osm`: nothing for the name or
category skip or for the `KeyError` on a missing id; the raw item alone when
the category row is absent; the raw item plus the place on success. -/
def osmStepState (cid sid : Nat) (el : OsmEl) (s : DBState) : DBState :=
  if !(pyTruthyS (tagGet el.tags "name")) then s
  else
    match map_category el.tags with
    | none => s
    | some cslug =>
      match el.id with
      | none => s
      | some eid =>
        let s1 := { s with raw_items := s.raw_items ++ [osmRawRow cid sid el eid] }
        match s.categories.find? (fun c => c.slug == cslug) with
        | none => s1
        | some cat =>
          { s1 with places := s1.places ++
              [osmPlaceRow cid cat.id (pyOrS (tagGet el.tags "name") "") el.tags
                (pyOrOptR el.lat el.center_lat) (pyOrOptR el.lon el.center_lon)] }

/-- Whether one element of `ingest_osm` is inserted. -/
def osmInsB (cats : List CatRow) (el : OsmEl) : Bool :=
  pyTruthyS (tagGet el.tags "name") &&
    (match map_category el.tags with
     | none => false
     | some cslug => el.id.isSome && (cats.find? (fun c => c.slug == cslug)).isSome)

/-- Whether one element of `ingest_osm` is counted as skipped (missing or
empty name, unrecognized category, or no category row after the raw write). -/
def osmSkB (cats : List CatRow) (el : OsmEl) : Bool :=
  !(pyTruthyS (tagGet el.tags "name")) ||
    (match map_category el.tags with
     | none => true
     | some cslug => el.id.isSome && !(cats.find? (fun c => c.slug == cslug)).isSome)

/-- Whether one element of `ingest_osm` raises: the `el["id"]` access is the
only per-element failure point with the store modelled reliable, reached for
named, category-recognized elements with no id. -/
def osmErrB (el : OsmEl) : Bool :=
  pyTruthyS (tagGet el.tags "name") &&
    (match map_category el.tags with
     | none => false
     | some _ => el.id.isNone)

/-- The per-element loop of `ingest_osm`: each element applies its writes and
bumps exactly one counter. -/
def osmLoop (cid sid : Nat) :
    List OsmEl → DBState → Nat → Nat → Nat → DBState × Nat × Nat × Nat
  | [], s, ins, sk, er => (s, ins, sk, er)
  | el :: rest, s, ins, sk, er =>
    osmLoop cid sid rest (osmStepState cid sid el s)
      (ins + (if osmInsB s.categories el then 1 else 0))
      (sk + (if osmSkB s.categories el then 1 else 0))
      (er + (if osmErrB el then 1 else 0))

/-- `POST /ingestions/osm` after city/source resolution.  The returned
summary has no `found` field. -/
def ingest_osm (cid sid : Nat) (fetch : Except String (List OsmEl))
    (tEnd : String) (s : DBState) : DBState × Option CountSummary :=
  let runId := s.ingestions.length
  let s0 := { s with ingestions := s.ingestions ++ [startRow sid cid] }
  match fetch with
  | Except.error e =>
    ({ s0 with ingestions := s0.ingestions.set runId (failedRow (startRow sid cid) tEnd e) },
     none)
  | Except.ok els =>
    let r := osmLoop cid sid els s0 0 0 0
    ({ r.1 with ingestions := r.1.ingestions.set runId (successRow (startRow sid cid) tEnd) },
     some ⟨r.2.1, r.2.2.1, r.2.2.2⟩)

/-! ### ingestions/places/osm.py `run_osm_ingestion` (the background variant)

This endpoint creates no ingestion-run record at all: every failure path
(missing city, missing centroid, Overpass failure) logs and returns.  Category
resolution is read-or-create; places are upserted on `(city_id, slug)`. -/

structure OsmCity where
  id : Nat
  lat : Option Rat
  lng : Option Rat

/-- `OSM_CATEGORY_MAP` of ingestions/places/osm.py: amenity to (slug, name). -/
def map_category_places (tags : List (String × String)) : Option (String × String) :=
  match tagGet tags "amenity" with
  | some "bar" => some ("bar", "Bar")
  | some "pub" => some ("pub", "Pub")
  | some "cafe" => some ("cafe", "Caffè")
  | some "restaurant" => some ("restaurant", "Ristorante")
  | some "fast_food" => some ("fast-food", "Fast Food")
  | some "nightclub" => some ("nightclub", "Nightclub")
  | some "biergarten" => some ("biergarten", "Birreria")
  | _ => none

/-- `get_or_create_category`: lookup by slug, inserting a `type="place"` row
when absent (the insert is modelled reliable, so the id is always returned). -/
def get_or_create_category (slug name : String) (s : DBState) : Nat × DBState :=
  match s.categories.find? (fun c => c.slug == slug) with
  | some c => (c.id, s)
  | none =>
    let cid := s.categories.length
    (cid, { s with categories := s.categories ++ [⟨cid, name, slug, "place"⟩] })

/-- The place dict upserted by the background variant. -/
def osmBgPlaceRow (cityId catId : Nat) (name : String)
    (tags : List (String × String)) (latE lngE : Option Rat) : PlaceRow :=
  { city_id := cityId
    category_id := catId
    name := name
    slug := slugify name
    description := tagGet tags "description"
    address := pyOrOptS (tagGet tags "addr:full") (tagGet tags "addr:street")
    lat := latE
    lng := lngE
    cover_image := none
    price_level := none
    source_confidence := none
    popularity := some 0 }

/-- `upsert(..., on_conflict="city_id,slug")`. -/
def upsertPlace (p : PlaceRow) (s : DBState) : DBState :=
  if s.places.any (fun q => q.city_id == p.city_id && q.slug == p.slug) then
    { s with places :=
        s.places.map (fun q => if q.city_id == p.city_id && q.slug == p.slug then p else q) }
  else { s with places := s.places ++ [p] }

/-- The store writes of one element of `run_osm_ingestion`: the category
read-or-create happens before the coordinate check, so a coordinate skip can
still create the category row. -/
def osmBgStep (cityId : Nat) (el : OsmEl) (s : DBState) : DBState :=
  if !(pyTruthyS (tagGet el.tags "name")) then s
  else
    match map_category_places el.tags with
    | none => s
    | some sn =>
      if (pyOrOptR el.lat el.center_lat).isNone || (pyOrOptR el.lon el.center_lon).isNone then
        (get_or_create_category sn.1 sn.2 s).2
      else
        upsertPlace
          (osmBgPlaceRow cityId (get_or_create_category sn.1 sn.2 s).1
            (pyOrS (tagGet el.tags "name") "") el.tags
            (pyOrOptR el.lat el.center_lat) (pyOrOptR el.lon el.center_lon))
          (get_or_create_category sn.1 sn.2 s).2

/-- Whether one element of `run_osm_ingestion` is upserted. -/
def osmBgInsB (el : OsmEl) : Bool :=
  pyTruthyS (tagGet el.tags "name") && (map_category_places el.tags).isSome &&
    !((pyOrOptR el.lat el.center_lat).isNone || (pyOrOptR el.lon el.center_lon).isNone)

/-- The per-element loop of `run_osm_ingestion`: each element applies its
writes and bumps the inserted or the skipped counter (the error branch of the
source requires a store failure, which is modelled reliable). -/
def osmBgLoop (cityId : Nat) :
    List OsmEl → DBState → Nat → Nat → Nat → DBState × Nat × Nat × Nat
  | [], s, ins, sk, er => (s, ins, sk, er)
  | el :: rest, s, ins, sk, er =>
    osmBgLoop cityId rest (osmBgStep cityId el s)
      (ins + (if osmBgInsB el then 1 else 0))
      (sk + (if osmBgInsB el then 0 else 1))
      er

/-- The background task `run_osm_ingestion(city_slug)` after the city lookup:
a missing city or missing centroid logs and returns with no write of any
kind; otherwise the source row is read-or-created, the Overpass fetch is
attempted (returning on failure), and the elements are upserted.  No
ingestion-run row is ever created or updated. -/
def run_osm_ingestion (city : Option OsmCity)
    (fetch : Except String (List OsmEl)) (s : DBState) : DBState :=
  match city with
  | none => s
  | some c =>
    if c.lat.isNone || c.lng.isNone then s
    else
      let s1 :=
        match s.sources.find? (fun r => r.name == "openstreetmap") with
        | some _ => s
        | none =>
          { s with sources := s.sources ++ [⟨s.sources.length, "openstreetmap", "osm", true⟩] }
      match fetch with
      | Except.error _ => s1
      | Except.ok els => (osmBgLoop c.id els s1 0 0 0).1

/-! ### The run-state invariant and basic store lemmas -/

/-- The lifecycle invariant of one ingestion-run row: failed status exactly
when an error text is recorded, and an end timestamp exactly on the two
terminal statuses. -/
def runInv (r : RunRow) : Bool :=
  ((r.status == "failed") == r.error.isSome) &&
    (r.ended_at.isSome == (r.status == "success" || r.status == "failed"))

theorem set_append_len {α : Type _} (l : List α) (a b : α) :
    (l ++ [a]).set l.length b = l ++ [b] := by
  induction l with
  | nil => rfl
  | cons x xs ih => simp [ih]

theorem existingUrlsL_append (srcName : String) (cid : Nat) (l1 l2 : List SubRow) :
    existingUrlsL srcName cid (l1 ++ l2) =
      existingUrlsL srcName cid l1 ++ existingUrlsL srcName cid l2 := by
  simp [existingUrlsL]

/-! ### Characterization of the dice loop -/

/-- The pair of rows one candidate contributes, if any: `none` both for the
dedup/title skip and for a detail-fetch failure. -/
def diceOut (now : PyDateTime) (cid sid runId : Nat)
    (detail : String → Except String DiceDetail) (ex : List String)
    (i : DiceItem) : Option (RawRow × SubRow) :=
  if diceSkip ex i then none
  else
    match detail i.source_url with
    | Except.error _ => none
    | Except.ok det => some (diceProcess now cid sid runId i det)

/-- Whether one candidate is inserted. -/
def diceIns (detail : String → Except String DiceDetail) (ex : List String)
    (i : DiceItem) : Bool :=
  !diceSkip ex i &&
    (match detail i.source_url with
     | Except.ok _ => true
     | Except.error _ => false)

/-- Whether one candidate raises (detail fetch failure) and is counted as an
error. -/
def diceErr (detail : String → Except String DiceDetail) (ex : List String)
    (i : DiceItem) : Bool :=
  !diceSkip ex i &&
    (match detail i.source_url with
     | Except.ok _ => false
     | Except.error _ => true)

/-- The submissions a dice run appends, in order. -/
def diceAdded (now : PyDateTime) (cid sid runId : Nat)
    (detail : String → Except String DiceDetail) (ex : List String)
    (items : List DiceItem) : List SubRow :=
  (items.filterMap (diceOut now cid sid runId detail ex)).map (fun p => p.2)

theorem diceLoop_eq (now : PyDateTime) (cid sid runId : Nat)
    (detail : String → Except String DiceDetail) (ex : List String) :
    ∀ (items : List DiceItem) (s : DBState) (ins sk er : Nat),
    diceLoop now cid sid runId detail ex items s ins sk er =
      ({ s with
          raw_items := s.raw_items ++
            (items.filterMap (diceOut now cid sid runId detail ex)).map (fun p => p.1),
          submissions := s.submissions ++ diceAdded now cid sid runId detail ex items },
       ins + items.countP (diceIns detail ex),
       sk + items.countP (fun i => diceSkip ex i),
       er + items.countP (diceErr detail ex)) := by
  intro items
  induction items with
  | nil => intro s ins sk er; simp [diceLoop, diceAdded]
  | cons i rest ih =>
    intro s ins sk er
    by_cases hskip : diceSkip ex i
    · rw [show diceLoop now cid sid runId detail ex (i :: rest) s ins sk er =
          diceLoop now cid sid runId detail ex rest s ins (sk + 1) er by
        simp [diceLoop, hskip]]
      rw [ih]
      simp [diceAdded, diceOut, diceIns, diceErr, hskip, List.countP_cons]
      omega
    · cases hdet : detail i.source_url with
      | error e =>
        rw [show diceLoop now cid sid runId detail ex (i :: rest) s ins sk er =
            diceLoop now cid sid runId detail ex rest s ins sk (er + 1) by
          simp [diceLoop, hskip, hdet]]
        rw [ih]
        simp [diceAdded, diceOut, diceIns, diceErr, hskip, hdet, List.countP_cons]
        omega
      | ok det =>
        rw [show diceLoop now cid sid runId detail ex (i :: rest) s ins sk er =
            diceLoop now cid sid runId detail ex rest
              { s with raw_items := s.raw_items ++ [(diceProcess now cid sid runId i det).1],
                       submissions := s.submissions ++ [(diceProcess now cid sid runId i det).2] }
              (ins + 1) sk er by
          simp [diceLoop, hskip, hdet]]
        rw [ih]
        simp [diceAdded, diceOut, diceIns, diceErr, hskip, hdet, List.countP_cons]
        omega

/-- The successful-page shape of a whole dice run. -/
theorem ingest_dice_ok (now : PyDateTime) (cid sid : Nat)
    (detail : String → Except String DiceDetail) (tEnd : String)
    (s : DBState) (items : List DiceItem) :
    ingest_dice now cid sid (Except.ok items) detail tEnd s =
      ({ s with
          raw_items := s.raw_items ++
            (items.filterMap (diceOut now cid sid s.ingestions.length detail
              (existingUrls "dice" cid s))).map (fun p => p.1),
          submissions := s.submissions ++ diceAdded now cid sid s.ingestions.length detail
            (existingUrls "dice" cid s) items,
          ingestions := s.ingestions ++ [successRow (startRow sid cid) tEnd] },
       some ⟨items.length,
             items.countP (diceIns detail (existingUrls "dice" cid s)),
             items.countP (fun i => diceSkip (existingUrls "dice" cid s) i),
             items.countP (diceErr detail (existingUrls "dice" cid s))⟩) := by
  simp only [ingest_dice]
  rw [diceLoop_eq]
  simp [existingUrls, set_append_len]

/-- The failed-page shape of a whole dice run. -/
theorem ingest_dice_err (now : PyDateTime) (cid sid : Nat)
    (detail : String → Except String DiceDetail) (tEnd e : String) (s : DBState) :
    ingest_dice now cid sid (Except.error e) detail tEnd s =
      ({ s with ingestions := s.ingestions ++ [failedRow (startRow sid cid) tEnd e] }, none) := by
  simp only [ingest_dice]
  rw [set_append_len]

theorem diceOut_some_fields {now : PyDateTime} {cid sid rid : Nat}
    {detail : String → Except String DiceDetail} {ex : List String}
    {i : DiceItem} {pr : RawRow × SubRow}
    (h : diceOut now cid sid rid detail ex i = some pr) :
    pr.2.source_url = i.source_url ∧ pr.2.source = "dice" ∧ pr.2.city_id = cid ∧
      pr.2.status = "visible" ∧ diceSkip ex i = false ∧ pr.2.title = i.title := by
  unfold diceOut at h
  by_cases hskip : diceSkip ex i
  · simp [hskip] at h
  · rw [if_neg hskip] at h
    cases hdet : detail i.source_url with
    | error e => rw [hdet] at h; exact absurd h (by simp)
    | ok det =>
      rw [hdet] at h
      have hpr : diceProcess now cid sid rid i det = pr := by
        exact Option.some.inj h
      subst hpr
      exact ⟨rfl, rfl, rfl, rfl, by simp [hskip], rfl⟩

theorem diceAdded_countP_le (now : PyDateTime) (cid sid rid : Nat)
    (detail : String → Except String DiceDetail) (ex : List String) (u : String) :
    ∀ items : List DiceItem,
    (diceAdded now cid sid rid detail ex items).countP (fun r => r.source_url == u) ≤
      items.countP (fun i => i.source_url == u) := by
  intro items
  induction items with
  | nil => simp [diceAdded]
  | cons i rest ih =>
    simp only [diceAdded, List.filterMap_cons] at *
    cases hout : diceOut now cid sid rid detail ex i with
    | none =>
      exact le_trans ih (by rw [List.countP_cons]; exact Nat.le_add_right _ _)
    | some pr =>
      have hurl := (diceOut_some_fields hout).1
      simp only [List.map_cons, List.countP_cons, hurl]
      omega

theorem diceAdded_countP_zero (now : PyDateTime) (cid sid rid : Nat)
    (detail : String → Except String DiceDetail) (ex : List String) (u : String)
    (hu : u ∈ ex) :
    ∀ items : List DiceItem,
    (diceAdded now cid sid rid detail ex items).countP (fun r => r.source_url == u) = 0 := by
  intro items
  induction items with
  | nil => simp [diceAdded]
  | cons i rest ih =>
    simp only [diceAdded, List.filterMap_cons] at *
    cases hout : diceOut now cid sid rid detail ex i with
    | none => exact ih
    | some pr =>
      have hf := diceOut_some_fields hout
      have hnm : i.source_url ∉ ex := by
        have := hf.2.2.2.2.1
        simp [diceSkip] at this
        exact this.2
      have hne : (pr.2.source_url == u) = false := by
        rw [hf.1]
        by_contra hbe
        have hb : (i.source_url == u) = true := eq_true_of_ne_false hbe
        exact hnm ((eq_of_beq hb) ▸ hu)
      simp only [List.map_cons, List.countP_cons, hne]
      simp [ih]

theorem diceAdded_mem_fields {now : PyDateTime} {cid sid rid : Nat}
    {detail : String → Except String DiceDetail} {ex : List String}
    {items : List DiceItem} {r : SubRow}
    (h : r ∈ diceAdded now cid sid rid detail ex items) :
    r.source = "dice" ∧ r.city_id = cid ∧ r.status = "visible" ∧
      pyTruthyS r.title = true := by
  simp only [diceAdded, List.mem_map] at h
  obtain ⟨pr, hpr, hr⟩ := h
  rw [List.mem_filterMap] at hpr
  obtain ⟨i, _, hout⟩ := hpr
  have hf := diceOut_some_fields hout
  have htit : pyTruthyS r.title = true := by
    have hskip := hf.2.2.2.2.1
    simp [diceSkip] at hskip
    rw [← hr, hf.2.2.2.2.2]
    exact hskip.1
  exact ⟨hr ▸ hf.2.1, hr ▸ hf.2.2.1, hr ▸ hf.2.2.2.1, htit⟩

/-- Membership of a row url in the dedup url set. -/
theorem mem_existingUrlsL {srcName : String} {cid : Nat} {subs : List SubRow}
    {r : SubRow} (hr : r ∈ subs) (hs : r.source = srcName) (hc : r.city_id = cid) :
    r.source_url ∈ existingUrlsL srcName cid subs := by
  simp only [existingUrlsL, List.mem_map, List.mem_filter]
  exact ⟨r, ⟨hr, by simp [hs, hc]⟩, rfl⟩

/-! ### Shape lemmas for the single-item endpoints -/

/-- The submissions one xceed run appends. -/
def xceedOut (cid runId : Nat) (ex : List String)
    (fetch : Except String XceedItem) : List SubRow :=
  match fetch with
  | Except.error _ => []
  | Except.ok it =>
    if !(pyTruthyS it.title) || ex.contains it.source_url then []
    else [xceedSubRow cid runId it]

theorem ingest_xceed_subs (cid sid : Nat) (fetch : Except String XceedItem)
    (tEnd : String) (s : DBState) :
    (ingest_xceed cid sid fetch tEnd s).1.submissions =
      s.submissions ++ xceedOut cid s.ingestions.length (existingUrls "xceed" cid s) fetch := by
  cases fetch with
  | error e => simp [ingest_xceed, xceedOut]
  | ok it =>
    by_cases hg : pyTruthyS it.title = false ∨ it.source_url ∈ existingUrlsL "xceed" cid s.submissions
    · simp [ingest_xceed, xceedOut, existingUrls, hg]
    · simp [ingest_xceed, xceedOut, existingUrls, hg]

theorem ingest_xceed_runs (cid sid : Nat) (fetch : Except String XceedItem)
    (tEnd : String) (s : DBState) :
    (ingest_xceed cid sid fetch tEnd s).1.ingestions =
      s.ingestions ++ [match fetch with
        | Except.error e => failedRow (startRow sid cid) tEnd e
        | Except.ok _ => successRow (startRow sid cid) tEnd] := by
  cases fetch with
  | error e => simp [ingest_xceed, set_append_len]
  | ok it =>
    by_cases hg : pyTruthyS it.title = false ∨ it.source_url ∈ existingUrlsL "xceed" cid s.submissions
    · simp [ingest_xceed, existingUrls, hg, set_append_len]
    · simp [ingest_xceed, existingUrls, hg, set_append_len]

/-- The submissions one eventbrite run appends. -/
def ebOut (cid runId : Nat) (ex : List String)
    (fetch : Except String EbItem) : List SubRow :=
  match fetch with
  | Except.error _ => []
  | Except.ok it =>
    if ex.contains it.source_url then [] else [ebSubRow cid runId it]

theorem ingest_eventbrite_subs (cid sid : Nat) (fetch : Except String EbItem)
    (tEnd : String) (s : DBState) :
    (ingest_eventbrite cid sid fetch tEnd s).1.submissions =
      s.submissions ++ ebOut cid s.ingestions.length (existingUrls "eventbrite" cid s) fetch := by
  cases fetch with
  | error e => simp [ingest_eventbrite, ebOut]
  | ok it =>
    by_cases hg : it.source_url ∈ existingUrlsL "eventbrite" cid s.submissions
    · simp [ingest_eventbrite, ebOut, existingUrls, hg]
    · simp [ingest_eventbrite, ebOut, existingUrls, hg]

theorem ingest_eventbrite_runs (cid sid : Nat) (fetch : Except String EbItem)
    (tEnd : String) (s : DBState) :
    (ingest_eventbrite cid sid fetch tEnd s).1.ingestions =
      s.ingestions ++ [match fetch with
        | Except.error e => failedRow (startRow sid cid) tEnd e
        | Except.ok _ => successRow (startRow sid cid) tEnd] := by
  cases fetch with
  | error e => simp [ingest_eventbrite, set_append_len]
  | ok it =>
    by_cases hg : it.source_url ∈ existingUrlsL "eventbrite" cid s.submissions
    · simp [ingest_eventbrite, existingUrls, hg, set_append_len]
    · simp [ingest_eventbrite, existingUrls, hg, set_append_len]

/-! ### Shape lemmas for the two geodata endpoints -/

theorem osmStepState_untouched (cid sid : Nat) (el : OsmEl) (s : DBState) :
    (osmStepState cid sid el s).ingestions = s.ingestions ∧
      (osmStepState cid sid el s).submissions = s.submissions ∧
      (osmStepState cid sid el s).categories = s.categories := by
  unfold osmStepState
  repeat' split
  all_goals exact ⟨rfl, rfl, rfl⟩

theorem osmLoop_untouched (cid sid : Nat) :
    ∀ (els : List OsmEl) (s : DBState) (ins sk er : Nat),
    (osmLoop cid sid els s ins sk er).1.ingestions = s.ingestions ∧
      (osmLoop cid sid els s ins sk er).1.submissions = s.submissions ∧
      (osmLoop cid sid els s ins sk er).1.categories = s.categories := by
  intro els
  induction els with
  | nil => intro s ins sk er; exact ⟨rfl, rfl, rfl⟩
  | cons el rest ih =>
    intro s ins sk er
    simp only [osmLoop]
    have hs := osmStepState_untouched cid sid el s
    exact ⟨((ih _ _ _ _).1).trans hs.1, ((ih _ _ _ _).2.1).trans hs.2.1,
      ((ih _ _ _ _).2.2).trans hs.2.2⟩

theorem osmLoop_errors (cid sid : Nat) :
    ∀ (els : List OsmEl) (s : DBState) (ins sk er : Nat),
    (osmLoop cid sid els s ins sk er).2.2.2 = er + els.countP osmErrB := by
  intro els
  induction els with
  | nil => intro s ins sk er; simp [osmLoop]
  | cons el rest ih =>
    intro s ins sk er
    simp only [osmLoop]
    rw [ih, List.countP_cons]
    by_cases he : osmErrB el = true
    · simp [he]
      omega
    · simp [he]

theorem ingest_osm_runs (cid sid : Nat) (fetch : Except String (List OsmEl))
    (tEnd : String) (s : DBState) :
    (ingest_osm cid sid fetch tEnd s).1.ingestions =
      s.ingestions ++ [match fetch with
        | Except.error e => failedRow (startRow sid cid) tEnd e
        | Except.ok _ => successRow (startRow sid cid) tEnd] := by
  cases fetch with
  | error e => simp [ingest_osm, set_append_len]
  | ok els =>
    have h := (osmLoop_untouched cid sid els
      { s with ingestions := s.ingestions ++ [startRow sid cid] } 0 0 0).1
    simp only [ingest_osm]
    rw [h]
    simp [set_append_len]

theorem upsertPlace_untouched (p : PlaceRow) (t : DBState) :
    (upsertPlace p t).ingestions = t.ingestions ∧
      (upsertPlace p t).submissions = t.submissions := by
  unfold upsertPlace
  split
  · exact ⟨rfl, rfl⟩
  · exact ⟨rfl, rfl⟩

theorem get_or_create_category_untouched (slug name : String) (s : DBState) :
    (get_or_create_category slug name s).2.ingestions = s.ingestions ∧
      (get_or_create_category slug name s).2.submissions = s.submissions := by
  unfold get_or_create_category
  cases s.categories.find? (fun c => c.slug == slug) <;> exact ⟨rfl, rfl⟩

theorem osmBgStep_untouched (cityId : Nat) (el : OsmEl) (s : DBState) :
    (osmBgStep cityId el s).ingestions = s.ingestions ∧
      (osmBgStep cityId el s).submissions = s.submissions := by
  unfold osmBgStep
  split
  · exact ⟨rfl, rfl⟩
  · split
    · exact ⟨rfl, rfl⟩
    · rename_i sn heq
      have hg := get_or_create_category_untouched sn.1 sn.2 s
      split
      · exact hg
      · have hu := upsertPlace_untouched
          (osmBgPlaceRow cityId (get_or_create_category sn.1 sn.2 s).1
            (pyOrS (tagGet el.tags "name") "") el.tags
            (pyOrOptR el.lat el.center_lat) (pyOrOptR el.lon el.center_lon))
          (get_or_create_category sn.1 sn.2 s).2
        exact ⟨hu.1.trans hg.1, hu.2.trans hg.2⟩

theorem osmBgLoop_ingestions (cityId : Nat) :
    ∀ (els : List OsmEl) (s : DBState) (ins sk er : Nat),
    (osmBgLoop cityId els s ins sk er).1.ingestions = s.ingestions ∧
      (osmBgLoop cityId els s ins sk er).1.submissions = s.submissions := by
  intro els
  induction els with
  | nil => intro s ins sk er; exact ⟨rfl, rfl⟩
  | cons el rest ih =>
    intro s ins sk er
    simp only [osmBgLoop]
    have hs := osmBgStep_untouched cityId el s
    exact ⟨((ih _ _ _ _).1).trans hs.1, ((ih _ _ _ _).2).trans hs.2⟩

/-- The empty store. -/
def dbEmpty : DBState := ⟨[], [], [], [], [], []⟩

theorem run_osm_ingestion_no_run (city : Option OsmCity)
    (fetch : Except String (List OsmEl)) (s : DBState) :
    (run_osm_ingestion city fetch s).ingestions = s.ingestions ∧
      (run_osm_ingestion city fetch s).submissions = s.submissions := by
  cases city with
  | none => exact ⟨rfl, rfl⟩
  | some c =>
    unfold run_osm_ingestion
    by_cases hco : (c.lat.isNone || c.lng.isNone) = true
    · simp [hco]
    · simp only [hco, if_false]
      cases hsrc : s.sources.find? (fun r => r.name == "openstreetmap") with
      | some _ =>
        cases fetch with
        | error e => exact ⟨rfl, rfl⟩
        | ok els => exact osmBgLoop_ingestions c.id els s 0 0 0
      | none =>
        cases fetch with
        | error e => exact ⟨rfl, rfl⟩
        | ok els =>
          exact osmBgLoop_ingestions c.id els
            { s with sources := s.sources ++ [⟨s.sources.length, "openstreetmap", "osm", true⟩] }
            0 0 0

theorem xceedOut_status {cid rid : Nat} {ex : List String}
    {fetch : Except String XceedItem} {r : SubRow}
    (h : r ∈ xceedOut cid rid ex fetch) : r.status = "visible" := by
  cases fetch with
  | error e => simp [xceedOut] at h
  | ok it =>
    simp only [xceedOut] at h
    split at h
    · simp at h
    · rw [List.mem_singleton.mp h]
      rfl

theorem ebOut_status {cid rid : Nat} {ex : List String}
    {fetch : Except String EbItem} {r : SubRow}
    (h : r ∈ ebOut cid rid ex fetch) : r.status = "visible" := by
  cases fetch with
  | error e => simp [ebOut] at h
  | ok it =>
    unfold ebOut at h
    split at h
    · simp at h
    · split at h
      · simp at h
      · rw [List.mem_singleton.mp h]
        rfl

theorem pyOrS_falsy {a : Option String} (h : pyTruthyS a = false) (b : String) :
    pyOrS a b = b := by
  cases a with
  | none => rfl
  | some t =>
    simp [pyTruthyS] at h
    simp [pyOrS, h]

/-- With no already-present url among the candidates, the dice skip test is
exactly the missing-title test. -/
theorem diceSkip_count_no_dup (ex : List String) (items : List DiceItem)
    (h : ∀ i ∈ items, i.source_url ∉ ex) :
    items.countP (fun i => diceSkip ex i) =
      items.countP (fun i => !(pyTruthyS i.title)) := by
  apply List.countP_congr
  intro i hi
  have hnm := h i hi
  simp [diceSkip]
  intro hmem
  exact absurd hmem hnm

/-- Each dice candidate bumps exactly one of the three counters. -/
theorem diceCounts_partition (detail : String → Except String DiceDetail)
    (ex : List String) :
    ∀ items : List DiceItem,
    items.countP (diceIns detail ex) + items.countP (fun i => diceSkip ex i) +
      items.countP (diceErr detail ex) = items.length := by
  intro items
  induction items with
  | nil => simp
  | cons i rest ih =>
    simp only [List.countP_cons, List.length_cons]
    by_cases hskip : diceSkip ex i
    · simp [diceIns, diceErr, hskip]
      omega
    · cases hdet : detail i.source_url with
      | ok det =>
        simp [diceIns, diceErr, hskip, hdet]
        omega
      | error er =>
        simp [diceIns, diceErr, hskip, hdet]
        omega

theorem osmLoop_inserted (cid sid : Nat) :
    ∀ (els : List OsmEl) (s : DBState) (ins sk er : Nat),
    (osmLoop cid sid els s ins sk er).2.1 = ins + els.countP (osmInsB s.categories) := by
  intro els
  induction els with
  | nil => intro s ins sk er; simp [osmLoop]
  | cons el rest ih =>
    intro s ins sk er
    simp only [osmLoop]
    rw [ih, (osmStepState_untouched cid sid el s).2.2, List.countP_cons]
    by_cases he : osmInsB s.categories el = true
    · simp [he]
      omega
    · simp [he]

theorem osmLoop_skipped (cid sid : Nat) :
    ∀ (els : List OsmEl) (s : DBState) (ins sk er : Nat),
    (osmLoop cid sid els s ins sk er).2.2.1 = sk + els.countP (osmSkB s.categories) := by
  intro els
  induction els with
  | nil => intro s ins sk er; simp [osmLoop]
  | cons el rest ih =>
    intro s ins sk er
    simp only [osmLoop]
    rw [ih, (osmStepState_untouched cid sid el s).2.2, List.countP_cons]
    by_cases he : osmSkB s.categories el = true
    · simp [he]
      omega
    · simp [he]

/-- The successful-fetch shape of a whole sync geodata run. -/
theorem ingest_osm_ok (cid sid : Nat) (els : List OsmEl) (tEnd : String)
    (s : DBState) :
    (ingest_osm cid sid (Except.ok els) tEnd s).2 =
      some ⟨els.countP (osmInsB s.categories), els.countP (osmSkB s.categories),
            els.countP osmErrB⟩ ∧
    (ingest_osm cid sid (Except.ok els) tEnd s).1.ingestions =
      s.ingestions ++ [successRow (startRow sid cid) tEnd] := by
  constructor
  · simp only [ingest_osm]
    rw [osmLoop_inserted, osmLoop_skipped, osmLoop_errors]
    simp
  · exact ingest_osm_runs cid sid (Except.ok els) tEnd s

theorem xceedOut_countP_le_one (p : SubRow → Bool) (cid rid : Nat)
    (ex : List String) (fetch : Except String XceedItem) :
    (xceedOut cid rid ex fetch).countP p ≤ 1 := by
  cases fetch with
  | error e => simp [xceedOut]
  | ok it =>
    simp only [xceedOut]
    split
    · simp
    · rw [List.countP_cons]
      by_cases hp : p (xceedSubRow cid rid it) = true
      · simp [hp]
      · simp [hp]

/-! ## Claim theorems -/

/-- C1: running ingest twice for the same source, city and source url
inserts at most one submission for that url.  Each run loads the url set
once before writing and skips any candidate whose url is in it, so across
two dice runs over a url list mentioning the url at most once — and across
two xceed runs fetching that url — the two runs together append at most one
submission carrying it (per-candidate failures included; no concurrent
run). -/
theorem ingest_twice_inserts_at_most_one (now : PyDateTime) (cid sid : Nat)
    (d1 d2 : String → Except String DiceDetail) (t1 t2 : String) (s : DBState)
    (items : List DiceItem) (u : String) (f1 f2 : Except String XceedItem)
    (hcount : items.countP (fun i => i.source_url == u) ≤ 1)
    (hx1 : ∀ it, f1 = Except.ok it → it.source_url = u)
    (hx2 : ∀ it, f2 = Except.ok it → it.source_url = u) :
    (((ingest_dice now cid sid (Except.ok items) d2 t2
        (ingest_dice now cid sid (Except.ok items) d1 t1 s).1).1.submissions.drop
        s.submissions.length).countP (fun r => r.source_url == u) ≤ 1) ∧
    (((ingest_xceed cid sid f2 t2
        (ingest_xceed cid sid f1 t1 s).1).1.submissions.drop
        s.submissions.length).countP (fun r => r.source_url == u) ≤ 1) := by
  constructor
  · rw [ingest_dice_ok now cid sid d1 t1 s items]
    rw [ingest_dice_ok]
    dsimp only [existingUrls]
    rw [List.append_assoc, List.drop_left, List.countP_append]
    by_cases hmem : u ∈ existingUrlsL "dice" cid s.submissions
    · have hz1 := diceAdded_countP_zero now cid sid s.ingestions.length d1
        (existingUrlsL "dice" cid s.submissions) u hmem items
      have hmem2 : u ∈ existingUrlsL "dice" cid (s.submissions ++
          diceAdded now cid sid s.ingestions.length d1
            (existingUrlsL "dice" cid s.submissions) items) := by
        rw [existingUrlsL_append]
        exact List.mem_append_left _ hmem
      have hz2 := diceAdded_countP_zero now cid sid
        (s.ingestions ++ [successRow (startRow sid cid) t1]).length d2
        (existingUrlsL "dice" cid (s.submissions ++
          diceAdded now cid sid s.ingestions.length d1
            (existingUrlsL "dice" cid s.submissions) items)) u hmem2 items
      omega
    · have hle2 := diceAdded_countP_le now cid sid
        (s.ingestions ++ [successRow (startRow sid cid) t1]).length d2
        (existingUrlsL "dice" cid (s.submissions ++
          diceAdded now cid sid s.ingestions.length d1
            (existingUrlsL "dice" cid s.submissions) items)) u items
      by_cases hz : (diceAdded now cid sid s.ingestions.length d1
          (existingUrlsL "dice" cid s.submissions) items).countP
          (fun r => r.source_url == u) = 0
      · omega
      · have hpos : 0 < (diceAdded now cid sid s.ingestions.length d1
            (existingUrlsL "dice" cid s.submissions) items).countP
            (fun r => r.source_url == u) := Nat.pos_of_ne_zero hz
        obtain ⟨r, hrA, hru⟩ := List.countP_pos_iff.mp hpos
        have hf := diceAdded_mem_fields hrA
        have hrurl : r.source_url = u := eq_of_beq hru
        have hmem2 : u ∈ existingUrlsL "dice" cid (s.submissions ++
            diceAdded now cid sid s.ingestions.length d1
              (existingUrlsL "dice" cid s.submissions) items) := by
          rw [existingUrlsL_append]
          refine List.mem_append_right _ ?_
          have hm := mem_existingUrlsL hrA hf.1 hf.2.1
          rwa [hrurl] at hm
        have hz2 := diceAdded_countP_zero now cid sid
          (s.ingestions ++ [successRow (startRow sid cid) t1]).length d2
          (existingUrlsL "dice" cid (s.submissions ++
            diceAdded now cid sid s.ingestions.length d1
              (existingUrlsL "dice" cid s.submissions) items)) u hmem2 items
        have hle1 := diceAdded_countP_le now cid sid s.ingestions.length d1
          (existingUrlsL "dice" cid s.submissions) u items
        omega
  · rw [ingest_xceed_subs cid sid f2 t2]
    rw [ingest_xceed_runs cid sid f1 t1 s]
    simp only [existingUrls]
    rw [ingest_xceed_subs cid sid f1 t1 s]
    simp only [existingUrls]
    rw [List.append_assoc, List.drop_left, List.countP_append]
    cases f1 with
    | error e1 =>
      have h1 : xceedOut cid s.ingestions.length
          (existingUrlsL "xceed" cid s.submissions) (Except.error e1) = [] := rfl
      rw [h1]
      simpa using xceedOut_countP_le_one (fun r => r.source_url == u) cid _ _ f2
    | ok it1 =>
      have hu1 : it1.source_url = u := hx1 it1 rfl
      by_cases hg1 : (!(pyTruthyS it1.title) ||
          (existingUrlsL "xceed" cid s.submissions).contains it1.source_url) = true
      · have h1 : xceedOut cid s.ingestions.length
            (existingUrlsL "xceed" cid s.submissions) (Except.ok it1) = [] := by
          simp only [xceedOut]
          rw [if_pos hg1]
        rw [h1]
        simpa using xceedOut_countP_le_one (fun r => r.source_url == u) cid _ _ f2
      · have h1 : xceedOut cid s.ingestions.length
            (existingUrlsL "xceed" cid s.submissions) (Except.ok it1) =
            [xceedSubRow cid s.ingestions.length it1] := by
          simp only [xceedOut]
          rw [if_neg hg1]
        rw [h1]
        have hc1 : (xceedSubRow cid s.ingestions.length it1).source_url = it1.source_url :=
          rfl
        have hmem2 : u ∈ existingUrlsL "xceed" cid
            (s.submissions ++ [xceedSubRow cid s.ingestions.length it1]) := by
          rw [existingUrlsL_append]
          refine List.mem_append_right _ ?_
          have hm := mem_existingUrlsL
            (List.mem_singleton_self (xceedSubRow cid s.ingestions.length it1))
            (rfl : (xceedSubRow cid s.ingestions.length it1).source = "xceed")
            (rfl : (xceedSubRow cid s.ingestions.length it1).city_id = cid)
          rwa [hc1, hu1] at hm
        have hz2 : ∀ rid2 : Nat, xceedOut cid rid2
            (existingUrlsL "xceed" cid
              (s.submissions ++ [xceedSubRow cid s.ingestions.length it1])) f2 = [] := by
          intro rid2
          cases f2 with
          | error e2 => rfl
          | ok it2 =>
            have hu2 : it2.source_url = u := hx2 it2 rfl
            simp only [xceedOut]
            have hcont : (existingUrlsL "xceed" cid
                (s.submissions ++ [xceedSubRow cid s.ingestions.length it1])).contains
                it2.source_url = true := by
              rw [hu2]
              exact List.elem_eq_true_of_mem hmem2
            rw [if_pos (by rw [hcont]; simp)]
        rw [hz2]
        have hp : ((xceedSubRow cid s.ingestions.length it1).source_url == u) = true := by
          rw [hc1, hu1]
          simp
        simp [List.countP_cons, hp]

/-- C1 (witness): two concrete back-to-back runs over one fresh url from the
empty store insert at most one submission for it. -/
theorem ingest_twice_inserts_at_most_one_witness :
    (([(⟨"https://dice.fm/event/a", some "A", none, none, none,
        none⟩ : DiceItem)].countP
        (fun i => i.source_url == "https://dice.fm/event/a") ≤ 1) ∧
      (∀ it : XceedItem,
        (Except.ok (⟨"https://dice.fm/event/a", some "A", none, none, none, none,
          none, none, none, none, none⟩ : XceedItem) :
            Except String XceedItem) = Except.ok it →
        it.source_url = "https://dice.fm/event/a")) ∧
    ((((ingest_dice ⟨2025, 1, 1, 0, 0⟩ 1 2
        (Except.ok [⟨"https://dice.fm/event/a", some "A", none, none, none, none⟩])
        (fun _ => Except.ok ⟨none, none⟩) "t2"
        (ingest_dice ⟨2025, 1, 1, 0, 0⟩ 1 2
          (Except.ok [⟨"https://dice.fm/event/a", some "A", none, none, none, none⟩])
          (fun _ => Except.ok ⟨none, none⟩) "t1" dbEmpty).1).1.submissions.drop
        dbEmpty.submissions.length).countP
        (fun r => r.source_url == "https://dice.fm/event/a") ≤ 1) ∧
     (((ingest_xceed 1 2
        (Except.ok ⟨"https://dice.fm/event/a", some "A", none, none, none, none,
          none, none, none, none, none⟩) "t2"
        (ingest_xceed 1 2
          (Except.ok ⟨"https://dice.fm/event/a", some "A", none, none, none, none,
            none, none, none, none, none⟩) "t1" dbEmpty).1).1.submissions.drop
        dbEmpty.submissions.length).countP
        (fun r => r.source_url == "https://dice.fm/event/a") ≤ 1)) :=
  ⟨⟨by decide, fun it h => by rw [← Except.ok.inj h]⟩,
   ingest_twice_inserts_at_most_one ⟨2025, 1, 1, 0, 0⟩ 1 2
     (fun _ => Except.ok ⟨none, none⟩) (fun _ => Except.ok ⟨none, none⟩)
     "t1" "t2" dbEmpty
     [⟨"https://dice.fm/event/a", some "A", none, none, none, none⟩]
     "https://dice.fm/event/a"
     (Except.ok ⟨"https://dice.fm/event/a", some "A", none, none, none, none,
       none, none, none, none, none⟩)
     (Except.ok ⟨"https://dice.fm/event/a", some "A", none, none, none, none,
       none, none, none, none, none⟩)
     (by decide)
     (fun it h => by rw [← Except.ok.inj h])
     (fun it h => by rw [← Except.ok.inj h])⟩

/-- C2: every IngestionRun row reachable through the modelled endpoints —
created with status running and given exactly one terminal update — keeps
the lifecycle invariant: status failed exactly when an error text is set,
and an end timestamp exactly on the success or failed statuses.  The
background geodata endpoint never creates a run row, so it preserves the
invariant trivially. -/
theorem ingestion_run_state_invariant (now : PyDateTime) (cid sid : Nat)
    (page : Except String (List DiceItem)) (detail : String → Except String DiceDetail)
    (fx : Except String XceedItem) (fe : Except String EbItem)
    (fo : Except String (List OsmEl)) (city : Option OsmCity)
    (fbg : Except String (List OsmEl)) (tEnd : String) (s : DBState)
    (hinv : ∀ r ∈ s.ingestions, runInv r = true) :
    (∀ r ∈ (ingest_dice now cid sid page detail tEnd s).1.ingestions, runInv r = true) ∧
    (∀ r ∈ (ingest_xceed cid sid fx tEnd s).1.ingestions, runInv r = true) ∧
    (∀ r ∈ (ingest_eventbrite cid sid fe tEnd s).1.ingestions, runInv r = true) ∧
    (∀ r ∈ (ingest_osm cid sid fo tEnd s).1.ingestions, runInv r = true) ∧
    (∀ r ∈ (run_osm_ingestion city fbg s).ingestions, runInv r = true) := by
  have hstep : ∀ t : RunRow, runInv t = true →
      ∀ r ∈ s.ingestions ++ [t], runInv r = true := by
    intro t ht r hr
    rcases List.mem_append.mp hr with hl | hl
    · exact hinv r hl
    · rw [List.mem_singleton.mp hl]
      exact ht
  have hsucc : runInv (successRow (startRow sid cid) tEnd) = true := rfl
  have hfail : ∀ e, runInv (failedRow (startRow sid cid) tEnd e) = true := fun _ => rfl
  refine ⟨?_, ?_, ?_, ?_, ?_⟩
  · cases page with
    | error e =>
      rw [ingest_dice_err]
      exact hstep _ (hfail e)
    | ok items =>
      rw [ingest_dice_ok]
      exact hstep _ hsucc
  · rw [ingest_xceed_runs]
    cases fx with
    | error e => exact hstep _ (hfail e)
    | ok it => exact hstep _ hsucc
  · rw [ingest_eventbrite_runs]
    cases fe with
    | error e => exact hstep _ (hfail e)
    | ok it => exact hstep _ hsucc
  · rw [ingest_osm_runs]
    cases fo with
    | error e => exact hstep _ (hfail e)
    | ok els => exact hstep _ hsucc
  · rw [(run_osm_ingestion_no_run city fbg s).1]
    exact hinv

/-- C2 (witness): the invariant propagated through one concrete invocation of
every endpoint from the empty store. -/
theorem ingestion_run_state_invariant_witness :
    (∀ r ∈ dbEmpty.ingestions, runInv r = true) ∧
    ((∀ r ∈ (ingest_dice ⟨2025, 1, 1, 0, 0⟩ 1 2 (Except.ok [])
        (fun _ => Except.ok ⟨none, none⟩) "t" dbEmpty).1.ingestions, runInv r = true) ∧
     (∀ r ∈ (ingest_xceed 1 2 (Except.error "boom") "t" dbEmpty).1.ingestions,
        runInv r = true) ∧
     (∀ r ∈ (ingest_eventbrite 1 2
        (Except.ok ⟨"u", none, none, none, none, none, none, none, none, none⟩)
        "t" dbEmpty).1.ingestions, runInv r = true) ∧
     (∀ r ∈ (ingest_osm 1 2 (Except.ok []) "t" dbEmpty).1.ingestions, runInv r = true) ∧
     (∀ r ∈ (run_osm_ingestion none (Except.error "x") dbEmpty).ingestions,
        runInv r = true)) :=
  ⟨by simp [dbEmpty],
   ingestion_run_state_invariant ⟨2025, 1, 1, 0, 0⟩ 1 2 (Except.ok [])
     (fun _ => Except.ok ⟨none, none⟩) (Except.error "boom")
     (Except.ok ⟨"u", none, none, none, none, none, none, none, none, none⟩)
     (Except.ok []) none (Except.error "x") "t" dbEmpty (by simp [dbEmpty])⟩

/-- C10: for a successful dice run the returned counters partition the
extracted candidates: found equals inserted plus skipped plus errors. -/
theorem found_equals_inserted_skipped_errors (now : PyDateTime) (cid sid : Nat)
    (detail : String → Except String DiceDetail) (tEnd : String) (s : DBState)
    (items : List DiceItem) (sum : RunSummary)
    (h : (ingest_dice now cid sid (Except.ok items) detail tEnd s).2 = some sum) :
    sum.found = sum.inserted + sum.skipped + sum.errors := by
  rw [ingest_dice_ok] at h
  have hs := Option.some.inj h
  have hp := diceCounts_partition detail (existingUrls "dice" cid s) items
  rw [← hs]
  dsimp only
  omega

/-- C10 (witness): a concrete two-candidate run (one inserted, one skipped)
returns found = 2 = 1 + 1 + 0. -/
theorem found_partition_witness :
    ((ingest_dice ⟨2025, 1, 1, 0, 0⟩ 1 2
        (Except.ok [⟨"https://dice.fm/event/a", some "A", none, none, none, none⟩,
                    ⟨"https://dice.fm/event/b", none, none, none, none, none⟩])
        (fun _ => Except.ok ⟨none, none⟩) "t" dbEmpty).2 =
      some ⟨2, 1, 1, 0⟩) ∧
    ((⟨2, 1, 1, 0⟩ : RunSummary).found =
      (⟨2, 1, 1, 0⟩ : RunSummary).inserted + (⟨2, 1, 1, 0⟩ : RunSummary).skipped +
        (⟨2, 1, 1, 0⟩ : RunSummary).errors) :=
  ⟨rfl,
   found_equals_inserted_skipped_errors ⟨2025, 1, 1, 0, 0⟩ 1 2
     (fun _ => Except.ok ⟨none, none⟩) "t" dbEmpty
     [⟨"https://dice.fm/event/a", some "A", none, none, none, none⟩,
      ⟨"https://dice.fm/event/b", none, none, none, none, none⟩]
     ⟨2, 1, 1, 0⟩ rfl⟩

/-- C3 (counterexample): a dice run over one fresh titled candidate inserts a
submission whose status is "visible", not "draft" — the ingestion routers
never write draft rows. -/
theorem dice_inserts_visible_not_draft :
    ((ingest_dice ⟨2025, 1, 1, 0, 0⟩ 1 2
        (Except.ok [⟨"https://dice.fm/event/x", some "T", none, none, none, none⟩])
        (fun _ => Except.ok ⟨none, none⟩) "t" dbEmpty).1.submissions.map
        (fun r => r.status)) = ["visible"] ∧
      ("visible" : String) ≠ "draft" :=
  ⟨rfl, by decide⟩

/-- C3 (amended): every submission persisted by a dice, xceed or eventbrite
ingestion run is created with status "visible" (not "draft" as the claim
states): the rows each run appends all carry that literal status. -/
theorem ingested_submissions_all_visible (now : PyDateTime) (cid sid : Nat)
    (page : Except String (List DiceItem)) (detail : String → Except String DiceDetail)
    (fx : Except String XceedItem) (fe : Except String EbItem)
    (tEnd : String) (s : DBState) :
    ((ingest_dice now cid sid page detail tEnd s).1.submissions.drop
        s.submissions.length).all (fun r => r.status == "visible") = true ∧
    ((ingest_xceed cid sid fx tEnd s).1.submissions.drop
        s.submissions.length).all (fun r => r.status == "visible") = true ∧
    ((ingest_eventbrite cid sid fe tEnd s).1.submissions.drop
        s.submissions.length).all (fun r => r.status == "visible") = true := by
  refine ⟨?_, ?_, ?_⟩
  · cases page with
    | error e =>
      rw [ingest_dice_err]
      dsimp only
      rw [List.drop_length]
      rfl
    | ok items =>
      rw [ingest_dice_ok]
      dsimp only
      rw [List.drop_left, List.all_eq_true]
      intro r hr
      have := (diceAdded_mem_fields hr).2.2.1
      simp [this]
  · rw [ingest_xceed_subs]
    rw [List.drop_left, List.all_eq_true]
    intro r hr
    have := xceedOut_status hr
    simp [this]
  · rw [ingest_eventbrite_subs]
    rw [List.drop_left, List.all_eq_true]
    intro r hr
    have := ebOut_status hr
    simp [this]

/-- C4 (counterexample): the eventbrite adapter does not skip a title-less
candidate: at a fresh url with no title it inserts one submission (inserted=1,
skipped=0) with the placeholder title "Eventbrite Event", where the claim
requires inserted=0 and skipped=1 for every adapter. -/
theorem eventbrite_titleless_inserted :
    ((ingest_eventbrite 1 2
        (Except.ok ⟨"https://www.eventbrite.com/e/1", none, none, none, none,
          none, none, none, none, none⟩) "t" dbEmpty).2 = some ⟨1, 0, 0⟩) ∧
    ((ingest_eventbrite 1 2
        (Except.ok ⟨"https://www.eventbrite.com/e/1", none, none, none, none,
          none, none, none, none, none⟩) "t" dbEmpty).1.submissions.map
        (fun r => r.title) = [some "Eventbrite Event"]) ∧
    (some (⟨1, 0, 0⟩ : CountSummary) ≠ some ⟨0, 1, 0⟩) :=
  ⟨rfl, rfl, by decide⟩

/-- C4 (amended): title-less candidates are skipped and counted only by the
dice and xceed adapters — for dice with no already-present url, skipped is
exactly the number of title-less candidates and every inserted submission has
a truthy title; for xceed a title-less item yields skipped=1 and no insert.
The eventbrite adapter (like partiful and resident_advisor) instead inserts
the candidate with a placeholder title. -/
theorem titleless_candidates_by_adapter (now : PyDateTime) (cid sid : Nat)
    (detail : String → Except String DiceDetail) (tEnd : String) (s : DBState)
    (items : List DiceItem) (it1 : XceedItem) (it2 : EbItem)
    (hnodup : ∀ i ∈ items, i.source_url ∉ existingUrls "dice" cid s)
    (ht1 : pyTruthyS it1.title = false)
    (ht2 : pyTruthyS it2.title = false)
    (hnd2 : it2.source_url ∉ existingUrls "eventbrite" cid s) :
    ((ingest_dice now cid sid (Except.ok items) detail tEnd s).2 =
        some ⟨items.length,
              items.countP (diceIns detail (existingUrls "dice" cid s)),
              items.countP (fun i => !(pyTruthyS i.title)),
              items.countP (diceErr detail (existingUrls "dice" cid s))⟩ ∧
      ((ingest_dice now cid sid (Except.ok items) detail tEnd s).1.submissions.drop
          s.submissions.length).all (fun r => pyTruthyS r.title) = true) ∧
    ((ingest_xceed cid sid (Except.ok it1) tEnd s).2 = some ⟨1, 0, 1, 0⟩ ∧
      (ingest_xceed cid sid (Except.ok it1) tEnd s).1.submissions = s.submissions) ∧
    ((ingest_eventbrite cid sid (Except.ok it2) tEnd s).2 = some ⟨1, 0, 0⟩ ∧
      ((ingest_eventbrite cid sid (Except.ok it2) tEnd s).1.submissions.drop
          s.submissions.length).map (fun r => r.title) = [some "Eventbrite Event"]) := by
  refine ⟨⟨?_, ?_⟩, ⟨?_, ?_⟩, ⟨?_, ?_⟩⟩
  · rw [ingest_dice_ok]
    dsimp only
    rw [diceSkip_count_no_dup (existingUrls "dice" cid s) items hnodup]
  · rw [ingest_dice_ok]
    dsimp only
    rw [List.drop_left, List.all_eq_true]
    intro r hr
    exact (diceAdded_mem_fields hr).2.2.2
  · simp [ingest_xceed, ht1]
  · simp [ingest_xceed, ht1]
  · have hnd2' : it2.source_url ∉ existingUrlsL "eventbrite" cid s.submissions := hnd2
    simp [ingest_eventbrite, existingUrls, hnd2']
  · rw [ingest_eventbrite_subs, List.drop_left]
    have hnd2' : it2.source_url ∉ existingUrlsL "eventbrite" cid s.submissions := hnd2
    simp [ebOut, existingUrls, hnd2', ebSubRow, pyOrS_falsy ht2]

/-- C4 (witness): one title-less dice candidate is skipped, a title-less
xceed item is skipped, and a title-less eventbrite item is inserted with the
placeholder, all from the empty store. -/
theorem titleless_candidates_by_adapter_witness :
    ((∀ i ∈ [(⟨"u1", none, none, none, none, none⟩ : DiceItem)],
        i.source_url ∉ existingUrls "dice" 1 dbEmpty) ∧
      pyTruthyS (⟨"u2", none, none, none, none, none, none, none, none, none,
        none⟩ : XceedItem).title = false ∧
      pyTruthyS (⟨"u3", none, none, none, none, none, none, none, none,
        none⟩ : EbItem).title = false ∧
      (⟨"u3", none, none, none, none, none, none, none, none,
        none⟩ : EbItem).source_url ∉ existingUrls "eventbrite" 1 dbEmpty) ∧
    (((ingest_dice ⟨2025, 1, 1, 0, 0⟩ 1 2
        (Except.ok [⟨"u1", none, none, none, none, none⟩])
        (fun _ => Except.ok ⟨none, none⟩) "t" dbEmpty).2 =
        some ⟨[(⟨"u1", none, none, none, none, none⟩ : DiceItem)].length,
              [(⟨"u1", none, none, none, none, none⟩ : DiceItem)].countP
                (diceIns (fun _ => Except.ok ⟨none, none⟩)
                  (existingUrls "dice" 1 dbEmpty)),
              [(⟨"u1", none, none, none, none, none⟩ : DiceItem)].countP
                (fun i => !(pyTruthyS i.title)),
              [(⟨"u1", none, none, none, none, none⟩ : DiceItem)].countP
                (diceErr (fun _ => Except.ok ⟨none, none⟩)
                  (existingUrls "dice" 1 dbEmpty))⟩ ∧
      ((ingest_dice ⟨2025, 1, 1, 0, 0⟩ 1 2
          (Except.ok [⟨"u1", none, none, none, none, none⟩])
          (fun _ => Except.ok ⟨none, none⟩) "t" dbEmpty).1.submissions.drop
          dbEmpty.submissions.length).all (fun r => pyTruthyS r.title) = true) ∧
     ((ingest_xceed 1 2 (Except.ok ⟨"u2", none, none, none, none, none, none,
          none, none, none, none⟩) "t" dbEmpty).2 = some ⟨1, 0, 1, 0⟩ ∧
      (ingest_xceed 1 2 (Except.ok ⟨"u2", none, none, none, none, none, none,
          none, none, none, none⟩) "t" dbEmpty).1.submissions =
        dbEmpty.submissions) ∧
     ((ingest_eventbrite 1 2 (Except.ok ⟨"u3", none, none, none, none, none,
          none, none, none, none⟩) "t" dbEmpty).2 = some ⟨1, 0, 0⟩ ∧
      ((ingest_eventbrite 1 2 (Except.ok ⟨"u3", none, none, none, none, none,
          none, none, none, none⟩) "t" dbEmpty).1.submissions.drop
          dbEmpty.submissions.length).map (fun r => r.title) =
        [some "Eventbrite Event"])) :=
  ⟨⟨by simp [existingUrls, existingUrlsL, dbEmpty], rfl, rfl,
     by simp [existingUrls, existingUrlsL, dbEmpty]⟩,
   titleless_candidates_by_adapter ⟨2025, 1, 1, 0, 0⟩ 1 2
     (fun _ => Except.ok ⟨none, none⟩) "t" dbEmpty
     [⟨"u1", none, none, none, none, none⟩]
     ⟨"u2", none, none, none, none, none, none, none, none, none, none⟩
     ⟨"u3", none, none, none, none, none, none, none, none, none⟩
     (by simp [existingUrls, existingUrlsL, dbEmpty]) rfl rfl
     (by simp [existingUrls, existingUrlsL, dbEmpty])⟩

/-- C5: per-candidate failures are isolated.  For a dice run whose page fetch
succeeds, the run closes as success, the errors counter counts exactly the
candidates whose detail fetch raises, and the appended submissions are the
filter-map over the whole candidate list — a failing candidate never stops
the later ones.  Only a page-level failure closes the run as failed (with the
stringified exception) and aborts processing; likewise for the sync geodata
run over its elements. -/
theorem per_candidate_failures_isolated (now : PyDateTime) (cid sid : Nat)
    (detail : String → Except String DiceDetail) (tEnd e : String) (s : DBState)
    (items : List DiceItem) (els : List OsmEl) :
    ((ingest_dice now cid sid (Except.ok items) detail tEnd s).2 =
        some ⟨items.length,
              items.countP (diceIns detail (existingUrls "dice" cid s)),
              items.countP (fun i => diceSkip (existingUrls "dice" cid s) i),
              items.countP (diceErr detail (existingUrls "dice" cid s))⟩ ∧
      (ingest_dice now cid sid (Except.ok items) detail tEnd s).1.ingestions =
        s.ingestions ++ [successRow (startRow sid cid) tEnd] ∧
      (ingest_dice now cid sid (Except.ok items) detail tEnd s).1.submissions =
        s.submissions ++ diceAdded now cid sid s.ingestions.length detail
          (existingUrls "dice" cid s) items) ∧
    ((ingest_dice now cid sid (Except.error e) detail tEnd s).1.ingestions =
        s.ingestions ++ [failedRow (startRow sid cid) tEnd e] ∧
      (ingest_dice now cid sid (Except.error e) detail tEnd s).1.submissions =
        s.submissions ∧
      (ingest_dice now cid sid (Except.error e) detail tEnd s).2 = none) ∧
    ((ingest_osm cid sid (Except.ok els) tEnd s).2 =
        some ⟨els.countP (osmInsB s.categories), els.countP (osmSkB s.categories),
              els.countP osmErrB⟩ ∧
      (ingest_osm cid sid (Except.ok els) tEnd s).1.ingestions =
        s.ingestions ++ [successRow (startRow sid cid) tEnd]) ∧
    ((ingest_osm cid sid (Except.error e) tEnd s).1.ingestions =
        s.ingestions ++ [failedRow (startRow sid cid) tEnd e] ∧
      (ingest_osm cid sid (Except.error e) tEnd s).1.places = s.places ∧
      (ingest_osm cid sid (Except.error e) tEnd s).2 = none) := by
  refine ⟨?_, ?_, ?_, ?_⟩
  · rw [ingest_dice_ok]
    exact ⟨rfl, rfl, rfl⟩
  · rw [ingest_dice_err]
    exact ⟨rfl, rfl, rfl⟩
  · exact ingest_osm_ok cid sid els tEnd s
  · refine ⟨?_, rfl, rfl⟩
    exact ingest_osm_runs cid sid (Except.error e) tEnd s

/-- C6 (counterexample): the background geodata ingestion on a city whose
centroid is null writes nothing at all — in particular it creates no
ingestion-run record, so no run ends with status failed and a non-null
error as the claim states; the failure is only logged. -/
theorem null_centroid_no_failed_run :
    (run_osm_ingestion (some ⟨1, none, some 9⟩)
        (Except.ok [⟨some 1, [("amenity", "bar"), ("name", "Bar X")],
          some 1, some 1, none, none⟩]) dbEmpty).ingestions = [] ∧
    (run_osm_ingestion (some ⟨1, none, some 9⟩)
        (Except.ok [⟨some 1, [("amenity", "bar"), ("name", "Bar X")],
          some 1, some 1, none, none⟩]) dbEmpty).places = [] ∧
    (run_osm_ingestion (some ⟨1, none, some 9⟩)
        (Except.ok [⟨some 1, [("amenity", "bar"), ("name", "Bar X")],
          some 1, some 1, none, none⟩]) dbEmpty) = dbEmpty :=
  ⟨rfl, rfl, rfl⟩

/-- C6 (amended): a geodata ingestion on a null-centroid city writes zero
places and zero submissions, but the two endpoints differ from the claim:
the background variant returns before any write and records no run and no
error, while the sync variant issues the spatial query regardless and closes
its run as failed with the stringified exception only when that fetch
raises. -/
theorem null_centroid_geodata_behaviour (c : OsmCity)
    (fetch : Except String (List OsmEl)) (s : DBState) (cid sid : Nat)
    (e tEnd : String) (hco : (c.lat.isNone || c.lng.isNone) = true) :
    run_osm_ingestion (some c) fetch s = s ∧
    ((ingest_osm cid sid (Except.error e) tEnd s).1.ingestions =
        s.ingestions ++ [failedRow (startRow sid cid) tEnd e] ∧
      (ingest_osm cid sid (Except.error e) tEnd s).1.places = s.places ∧
      (ingest_osm cid sid (Except.error e) tEnd s).1.submissions = s.submissions) := by
  constructor
  · unfold run_osm_ingestion
    simp [hco]
  · refine ⟨?_, rfl, rfl⟩
    exact ingest_osm_runs cid sid (Except.error e) tEnd s

/-- C6 (witness): the behaviour at a concrete null-centroid city and a
concrete failing overpass fetch. -/
theorem null_centroid_geodata_behaviour_witness :
    (((⟨1, none, some 9⟩ : OsmCity).lat.isNone ||
        (⟨1, none, some 9⟩ : OsmCity).lng.isNone) = true) ∧
    (run_osm_ingestion (some ⟨1, none, some 9⟩) (Except.ok []) dbEmpty = dbEmpty ∧
     ((ingest_osm 1 2 (Except.error "overpass down") "t" dbEmpty).1.ingestions =
        dbEmpty.ingestions ++ [failedRow (startRow 2 1) "t" "overpass down"] ∧
      (ingest_osm 1 2 (Except.error "overpass down") "t" dbEmpty).1.places =
        dbEmpty.places ∧
      (ingest_osm 1 2 (Except.error "overpass down") "t" dbEmpty).1.submissions =
        dbEmpty.submissions)) :=
  ⟨by decide,
   null_centroid_geodata_behaviour ⟨1, none, some 9⟩ (Except.ok []) dbEmpty 1 2
     "overpass down" "t" (by decide)⟩

/-- C7 (counterexample): the claim says the price parser of every event
adapter maps the text "Gratis" to price_min=0 and price_max=0, but the xceed
adapter's `parse_prices` has no free-text handling and yields no prices at
all on "Gratis". -/
theorem parse_prices_gratis_unhandled :
    parse_prices (some "Gratis") = (none, none) ∧
      ((none, none) : Option Rat × Option Rat) ≠ (some 0, some 0) := by
  exact ⟨by decide, by decide⟩

/-- C7 (amended): the dice adapter's `parse_price` maps "Gratis" to (0, 0)
and "€10 – €25" to (10, 25); the xceed adapter's `parse_prices` maps
"€10 – €25" to (10, 25) but maps "Gratis" to (None, None), because it scans
only numeric tokens. -/
theorem price_parser_gratis_and_range :
    parse_price (some "Gratis") = (some 0, some 0) ∧
      parse_price (some "€10 – €25") = (some 10, some 25) ∧
      parse_prices (some "€10 – €25") = (some 10, some 25) ∧
      parse_prices (some "Gratis") = (none, none) := by
  exact ⟨by decide, by decide, by decide, by decide⟩

/-- C8: for a date text carrying a bare day and month, when the date composed
with the current year at 21:00 falls earlier than now minus one day in the
city's wall clock, `parse_dice_date` projects the result one year forward, so
the resolved start lands in the year after `now.year`, not in the past. -/
theorem bare_day_month_projected_forward (now : PyDateTime) (s : String)
    (d m : Nat) (hne : s ≠ "")
    (hparse : parseDayMonthTokens s.data = some (d, m))
    (hd1 : 1 ≤ d) (hd2 : d ≤ daysInMonth now.year m)
    (hlt : dtLtB ⟨now.year, m, d, 21, 0⟩ (subOneDay now) = true) :
    parse_dice_date now (some s) = some (addOneYear ⟨now.year, m, d, 21, 0⟩) ∧
      (addOneYear ⟨now.year, m, d, 21, 0⟩).year = now.year + 1 ∧
      now.year < (addOneYear ⟨now.year, m, d, 21, 0⟩).year := by
  have hbeq : (s == "") = false := by
    simp [hne]
  have hcond : (d < 1 || daysInMonth now.year m < d) = false := by
    simp
    omega
  refine ⟨?_, rfl, Nat.lt_succ_self _⟩
  simp only [parse_dice_date, hbeq, Bool.false_eq_true, if_false, hparse, hcond, hlt, if_true]

/-- C8 (witness): a concrete projection: on 2025-06-15 in the city clock, the
text "sat 10 gen" resolves to 2026-01-10 21:00. -/
theorem bare_day_month_projected_forward_witness :
    (("sat 10 gen" : String) ≠ "" ∧
      parseDayMonthTokens ("sat 10 gen" : String).data = some (10, 1) ∧
      1 ≤ 10 ∧ 10 ≤ daysInMonth 2025 1 ∧
      dtLtB ⟨2025, 1, 10, 21, 0⟩ (subOneDay ⟨2025, 6, 15, 12, 0⟩) = true) ∧
    (parse_dice_date ⟨2025, 6, 15, 12, 0⟩ (some "sat 10 gen") =
        some (addOneYear ⟨2025, 1, 10, 21, 0⟩) ∧
      (addOneYear ⟨2025, 1, 10, 21, 0⟩).year = 2025 + 1 ∧
      2025 < (addOneYear ⟨2025, 1, 10, 21, 0⟩).year) :=
  ⟨⟨by decide, by decide, by decide, by decide, by decide⟩,
   bare_day_month_projected_forward ⟨2025, 6, 15, 12, 0⟩ "sat 10 gen" 10 1
     (by decide) (by decide) (by decide) (by decide) (by decide)⟩

/-- C9: the shared `checksum` is deterministic — it is a pure function of the
payload — and independent of field insertion order: payloads that are equal
as key-value maps (a permutation with no duplicate keys) serialize to the
same `sort_keys=True` document and hence to the same digest. -/
theorem checksum_deterministic_order_independent :
    (∀ p : List (String × Json), checksum p = checksum p) ∧
      (∀ p1 p2 : List (String × Json), p1.Perm p2 → (p1.map Prod.fst).Nodup →
        checksum p1 = checksum p2) := by
  constructor
  · intro p
    rfl
  · intro p1 p2 hperm hnd
    have hsorted1 : List.Sorted keyLe (sortFields p1) :=
      List.sorted_insertionSort keyLe p1
    have hsorted2 : List.Sorted keyLe (sortFields p2) :=
      List.sorted_insertionSort keyLe p2
    have hp : (sortFields p1).Perm (sortFields p2) :=
      ((List.perm_insertionSort keyLe p1).trans hperm).trans
        (List.perm_insertionSort keyLe p2).symm
    have hnd1 : ((sortFields p1).map Prod.fst).Nodup :=
      (((List.perm_insertionSort keyLe p1).map Prod.fst).nodup_iff).mpr hnd
    have hnd2 : ((sortFields p2).map Prod.fst).Nodup :=
      ((hp.map Prod.fst).nodup_iff).mp hnd1
    have hne1 : List.Pairwise (fun a b : String × Json => a.1 ≠ b.1) (sortFields p1) :=
      (List.pairwise_map).mp hnd1
    have hne2 : List.Pairwise (fun a b : String × Json => a.1 ≠ b.1) (sortFields p2) :=
      (List.pairwise_map).mp hnd2
    have hlt1 : List.Sorted keyLt (sortFields p1) :=
      hsorted1.imp₂ (fun _ _ hle hne => lt_of_le_of_ne hle hne) hne1
    have hlt2 : List.Sorted keyLt (sortFields p2) :=
      hsorted2.imp₂ (fun _ _ hle hne => lt_of_le_of_ne hle hne) hne2
    have hsort : sortFields p1 = sortFields p2 :=
      List.eq_of_perm_of_sorted hp hlt1 hlt2
    have hd : dumpsJ (Json.obj p1) = dumpsJ (Json.obj p2) := by
      rw [dumpsJ, dumpsJ, hsort]
    rw [checksum, checksum, hd]

/-- C9 (witness): two concrete two-field payloads built in opposite orders
share the checksum. -/
theorem checksum_order_independent_witness :
    (([(("b" : String), Json.num 1), ("a", Json.str "x")]).Perm
        [(("a" : String), Json.str "x"), ("b", Json.num 1)] ∧
      (([(("b" : String), Json.num 1), ("a", Json.str "x")]).map Prod.fst).Nodup) ∧
    checksum [("b", Json.num 1), ("a", Json.str "x")] =
      checksum [("a", Json.str "x"), ("b", Json.num 1)] :=
  ⟨⟨List.Perm.swap ("a", Json.str "x") ("b", Json.num 1) [], by decide⟩,
   checksum_deterministic_order_independent.2
     [("b", Json.num 1), ("a", Json.str "x")]
     [("a", Json.str "x"), ("b", Json.num 1)]
     (List.Perm.swap ("a", Json.str "x") ("b", Json.num 1) []) (by decide)⟩

end Miutifin
